import Mathlib

/-!
# Storefront client (`react-app/src/App.js`): cart, order submission, error
classification, role flag and the authenticated-request interceptor

The component `App` keeps six pieces of React state (`products`, `orders`,
`cart`, `error`, `activeTab`, `newProduct`) and talks to a backend through an
axios instance whose request interceptor refreshes the Keycloak token.

The embedding is shallow: every handler of `App` is a Lean function on an
explicit state record.  Everything the handlers obtain from outside (the
answers of `keycloak.isTokenExpired`, `keycloak.updateToken`, of the backend
and of `window.confirm`) is an explicit argument, and everything they do to the
outside (requests dispatched, dialogs raised, Keycloak calls) is recorded in an
event list.  A handler runs to completion on the state it was invoked on.

JavaScript numbers that the handlers touch are product ids, quantities and HTTP
status codes; they are modelled as mathematical integers (`Int`, `Nat`), which
is exact on the safe-integer range of an IEEE double.
-/

namespace App

/-! ## JavaScript primitives used by the handlers -/

/-- Number to string conversion (`String(n)`, also the property key of `n`) of an
integer-valued number: the decimal digits, preceded by `-` when negative. This
is the conversion on the integers a double holds exactly (magnitude up to
`2^53`); ids are taken from that range. -/
def numberToString : Int → String
  | Int.ofNat m => String.mk (Nat.toDigits 10 m)
  | Int.negSucc m => String.mk ('-' :: Nat.toDigits 10 (m + 1))

/-- Code points that `parseInt` skips at the start of its input: the
ECMAScript WhiteSpace and LineTerminator characters. -/
def isWhiteSpace (c : Char) : Bool :=
  let v := c.toNat
  v = 0x09 || v = 0x0A || v = 0x0B || v = 0x0C || v = 0x0D || v = 0x20 || v = 0xA0
    || v = 0x1680 || (0x2000 ≤ v && v ≤ 0x200A) || v = 0x2028 || v = 0x2029
    || v = 0x202F || v = 0x205F || v = 0x3000 || v = 0xFEFF

/-- Decimal digit characters `0`..`9`. -/
def IsDecimalDigit (c : Char) : Prop := 48 ≤ c.toNat ∧ c.toNat ≤ 57

/-- Value of a character read as a digit (`0`-`9`, then letters from ten on). -/
def digitValue (c : Char) : Option Nat :=
  let v := c.toNat
  if 48 ≤ v ∧ v ≤ 57 then some (v - 48)
  else if 97 ≤ v ∧ v ≤ 122 then some (v - 97 + 10)
  else if 65 ≤ v ∧ v ≤ 90 then some (v - 65 + 10)
  else none

/-- Test used by `parseInt` to find the end of the numeral: is `c` a digit of
radix `R`. -/
def isRadixDigit (R : Nat) (c : Char) : Bool :=
  match digitValue c with
  | some d => decide (d < R)
  | none => false

/-- Numeric value of a run of radix-`R` digits. -/
def digitsValue (R : Nat) (Z : List Char) : Nat :=
  Z.foldl (fun acc c => acc * R + (digitValue c).getD 0) 0

/-- The sign step of `parseInt`: a leading `-` gives sign `-1`; a leading `+`
or `-` is removed. -/
def parseSign : List Char → Int × List Char
  | '-' :: r => (-1, r)
  | '+' :: r => (1, r)
  | S => (1, S)

/-- The radix step of `parseInt` called without a radix: a leading `0x` or
`0X` is removed and selects radix 16, otherwise the radix is 10. -/
def parseRadix : List Char → Nat × List Char
  | '0' :: 'x' :: r => (16, r)
  | '0' :: 'X' :: r => (16, r)
  | S => (10, S)

/-- One-argument call `parseInt(string)` on a string; `none` is `NaN`. -/
def parseInt (s : String) : Option Int :=
  let S := s.data.dropWhile isWhiteSpace
  let (sign, S) := parseSign S
  let (R, S) := parseRadix S
  let Z := S.takeWhile (isRadixDigit R)
  if Z.isEmpty then none else some (sign * (digitsValue R Z : Int))

/-! ## Ordinary objects with numeric property values (the cart) -/

/-- An ordinary object whose property values are numbers: the properties in
creation order. -/
abbrev JSObject := List (String × Nat)

/-- Array-index test on a property key: `some n` when the key is the canonical
decimal string of an integer `n` with `0 ≤ n < 2^32 - 1`. -/
def arrayIndex? (k : String) : Option Nat :=
  let n := digitsValue 10 k.data
  if numberToString (Int.ofNat n) = k ∧ n < 2 ^ 32 - 1 then some n else none

/-- The order in which an ordinary object enumerates its own keys, given in
creation order: the array-index keys in ascending numeric order, then the
other string keys in creation order. -/
def ownKeyOrder (ks : List String) : List String :=
  ((ks.filterMap arrayIndex?).insertionSort (· ≤ ·)).map (fun n => numberToString (Int.ofNat n))
    ++ ks.filter (fun k => (arrayIndex? k).isNone)

/-- The call `Object.keys(o)`: the own keys in enumeration order. -/
def Object.keys (o : JSObject) : List String :=
  ownKeyOrder (o.map Prod.fst)

/-- Property read `o[k]`; `none` is `undefined`. -/
def getProp {α : Type} (o : List (String × α)) (k : String) : Option α :=
  o.lookup k

/-- Property write `o[k] = v` on a data property: an existing property keeps
its place, a new one is created last. -/
def setProp {α : Type} (o : List (String × α)) (k : String) (v : α) : List (String × α) :=
  if o.any (fun e => e.1 == k) then o.map (fun e => if e.1 = k then (k, v) else e)
  else o ++ [(k, v)]

/-- Object spread `{...o}`: a fresh object that receives the properties of `o`
one by one in own-key order. -/
def spread (o : JSObject) : JSObject :=
  (Object.keys o).filterMap (fun k => (getProp o k).map (fun v => (k, v)))

/-- The expression `x || 0` on a quantity read from the cart: `undefined` and
`0` are falsy. -/
def orZero : Option Nat → Nat
  | some v => if v = 0 then 0 else v
  | none => 0

/-! ## Data held by the component -/

/-- A catalog entry as served by `GET /products`. The price is carried
verbatim and never computed on. -/
structure Product where
  id : Int
  name : String
  price : Int
  quantity : Int
  description : String
  deriving DecidableEq, Repr

/-- An order as served by `GET /orders`. -/
structure Order where
  id : Int
  date : String
  status : String
  totalAmount : Int
  deriving DecidableEq, Repr

/-- The add-product form state `newProduct`. -/
structure NewProduct where
  name : String
  price : Int
  quantity : Int
  description : String
  deriving DecidableEq, Repr

/-- One element of `orderLines`: `{productId: parseInt(key), quantity: cart[key]}`.
A `productId` of `none` is `NaN`, a `quantity` of `none` is `undefined`. -/
structure OrderLine where
  productId : Option Int
  quantity : Option Nat
  deriving DecidableEq, Repr

/-- React state of `App`: one field per `useState`. An `error` of `none` is
`null`. -/
structure AppState where
  products : List Product
  orders : List Order
  cart : JSObject
  error : Option String
  activeTab : String
  newProduct : NewProduct
  deriving DecidableEq, Repr

/-- The arguments of the six `useState` calls. -/
def AppState.initial : AppState :=
  { products := [], orders := [], cart := [], error := none, activeTab := "products",
    newProduct := { name := "", price := 0, quantity := 0, description := "" } }

/-! ## The Keycloak session object -/

/-- The object `tokenParsed.realm_access`. -/
structure RealmAccess where
  roles : Option (List String)
  deriving DecidableEq, Repr

/-- The decoded token `keycloak.tokenParsed`. -/
structure TokenParsed where
  preferred_username : Option String
  realm_access : Option RealmAccess
  deriving DecidableEq, Repr

/-- The fields of the `keycloak` prop that the component reads. An absent
field (`undefined`) is `none`. -/
structure Keycloak where
  authenticated : Bool
  token : String
  tokenParsed : Option TokenParsed
  deriving DecidableEq, Repr

/-- The constant `isAdmin`:
`keycloak.tokenParsed?.realm_access?.roles?.includes("ADMIN")`. Each `?.` yields
`undefined` (`none`) when what stands before it is absent; `includes` yields a
boolean. -/
def isAdmin (keycloak : Keycloak) : Option Bool :=
  match keycloak.tokenParsed with
  | none => none
  | some tokenParsed =>
    match tokenParsed.realm_access with
    | none => none
    | some realm_access =>
      match realm_access.roles with
      | none => none
      | some roles => some (roles.contains "ADMIN")

/-- The value of `isAdmin` as the render reads it: every use is a guard
`isAdmin && ...`, which tests truthiness; `undefined` and `false` are falsy. -/
def truthy : Option Bool → Bool
  | some b => b
  | none => false

/-! ## Requests, failures and the outside world -/

/-- Request body: `{ orderLines }` for `POST /orders`, the form state for
`POST /products`. -/
inductive Body
  | orderLines (orderLines : List OrderLine)
  | newProduct (draft : NewProduct)
  deriving DecidableEq, Repr

/-- An axios request configuration. `headers` holds the headers this program
sets. -/
structure RequestConfig where
  baseURL : String
  method : String
  url : String
  data : Option Body
  headers : List (String × String)
  deriving DecidableEq, Repr

/-- The `response` member of a caught error. -/
structure Response where
  status : Int
  deriving DecidableEq, Repr

/-- A caught failure `err`: an error object whose `response` member is present
when the backend answered and absent otherwise. -/
structure JSError where
  response : Option Response
  deriving DecidableEq, Repr

/-- The `data` member of a successful response. -/
inductive ResponseData
  | products (data : List Product)
  | orders (data : List Order)
  | other
  deriving DecidableEq, Repr

/-- What passes between the component and the outside, in order of occurrence:
Keycloak calls, requests dispatched, successful responses received, dialogs. -/
inductive Event
  | isTokenExpired (leeway : Nat)
  | updateToken (minValidity : Nat)
  | dispatch (config : RequestConfig)
  | response (config : RequestConfig) (data : ResponseData)
  | alert (message : String)
  | confirm (message : String)
  deriving DecidableEq, Repr

/-- What the outside answers during one request: the results of
`keycloak.isTokenExpired` and `keycloak.updateToken` (on success the value of
`keycloak.token` afterwards) and the reply of the backend if the request
reaches it. -/
structure Exchange (α : Type) where
  isTokenExpired : Nat → Bool
  updateToken : Nat → Except JSError String
  reply : Except JSError α

/-- The component together with the session object it was given and the
record of what it did so far. -/
structure World where
  app : AppState
  keycloak : Keycloak
  trace : List Event
  deriving DecidableEq, Repr

/-- A freshly mounted component. -/
def World.initial (keycloak : Keycloak) : World :=
  { app := AppState.initial, keycloak := keycloak, trace := [] }

/-- The request interceptor registered with `api.interceptors.request.use`.
Returns the configuration to dispatch or the failure of the refresh, the
session object afterwards and the Keycloak calls made. -/
def interceptor {α : Type} (x : Exchange α) (keycloak : Keycloak) (config : RequestConfig) :
    Except JSError RequestConfig × Keycloak × List Event :=
  if x.isTokenExpired 5 then
    match x.updateToken 30 with
    | Except.error err =>
      (Except.error err, keycloak, [Event.isTokenExpired 5, Event.updateToken 30])
    | Except.ok token =>
      let keycloak := { keycloak with token := token }
      (Except.ok { config with
          headers := setProp config.headers "Authorization" ("Bearer " ++ keycloak.token) },
        keycloak, [Event.isTokenExpired 5, Event.updateToken 30])
  else
    (Except.ok { config with
        headers := setProp config.headers "Authorization" ("Bearer " ++ keycloak.token) },
      keycloak, [Event.isTokenExpired 5])

/-- One call through the axios instance `api`: the interceptor runs, and only
if it returns a configuration the request is dispatched and the backend
replies. -/
def request {α : Type} (wrap : α → ResponseData) (x : Exchange α) (config : RequestConfig)
    (w : World) : Except JSError α × World :=
  match interceptor x w.keycloak config with
  | (Except.error err, keycloak, calls) =>
    (Except.error err, { w with keycloak := keycloak, trace := w.trace ++ calls })
  | (Except.ok config, keycloak, calls) =>
    match x.reply with
    | Except.ok data =>
      (Except.ok data, { w with
        keycloak := keycloak,
        trace := w.trace ++ calls ++ [Event.dispatch config, Event.response config (wrap data)] })
    | Except.error err =>
      (Except.error err, { w with
        keycloak := keycloak, trace := w.trace ++ calls ++ [Event.dispatch config] })

/-- The configuration of `api.get(url)`, `api.delete(url)` and
`api.post(url, data)` on the instance created with the fixed `baseURL`. -/
def api.config (method url : String) (data : Option Body) : RequestConfig :=
  { baseURL := "http://localhost:8085", method := method, url := url, data := data,
    headers := [] }

/-- The call `alert(message)`. -/
def alert (message : String) (w : World) : World :=
  { w with trace := w.trace ++ [Event.alert message] }

/-- Body of `addToCart`: the updater passed to `setCart`,
`prev => ({...prev, [product.id]: (prev[product.id] || 0) + 1})`. -/
def addToCart (product : Product) (prev : JSObject) : JSObject :=
  setProp (spread prev) (numberToString product.id)
    (orZero (getProp prev (numberToString product.id)) + 1)

/-- The cart after a sequence of `addToCart` calls, starting from the initial
state `useState({})`. -/
def cartAfter (calls : List Product) : JSObject :=
  calls.foldl (fun cart product => addToCart product cart) []

/-! ## Handlers of the component -/

/-- Body of `handleError`: the message passed to `setError`. -/
def handleError (err : JSError) (s : AppState) : AppState :=
  match err.response with
  | some response =>
    if response.status = 401 then { s with error := some "Unauthorized (401)" }
    else if response.status = 403 then { s with error := some "Access Denied (403)" }
    else { s with error := some ("Error: " ++ numberToString response.status) }
  | none => { s with error := some "Network Error" }

/-- Handler `fetchProducts`. -/
def fetchProducts (get : Exchange (List Product)) (w : World) : World :=
  match request ResponseData.products get (api.config "get" "/products" none) w with
  | (Except.ok data, w) => { w with app := { w.app with products := data, error := none } }
  | (Except.error err, w) => { w with app := handleError err w.app }

/-- Handler `fetchOrders`. -/
def fetchOrders (get : Exchange (List Order)) (w : World) : World :=
  match request ResponseData.orders get (api.config "get" "/orders" none) w with
  | (Except.ok data, w) => { w with app := { w.app with orders := data, error := none } }
  | (Except.error err, w) => { w with app := handleError err w.app }

/-- The constant `orderLines` that `placeOrder` computes from the cart:
`Object.keys(cart).map(productId => ({productId: parseInt(productId),
quantity: cart[productId]}))`. -/
def orderLines (cart : JSObject) : List OrderLine :=
  (Object.keys cart).map
    (fun productId => { productId := parseInt productId, quantity := getProp cart productId })

/-- Handler `placeOrder`. `post` answers the `POST /orders`, `get` the
`GET /orders` that follows when the orders tab is active. -/
def placeOrder (post : Exchange Unit) (get : Exchange (List Order)) (w : World) : World :=
  let orderLines := orderLines w.app.cart
  if orderLines.length = 0 then w
  else
    match request (fun _ => ResponseData.other) post
        (api.config "post" "/orders" (some (Body.orderLines orderLines))) w with
    | (Except.ok _, w1) =>
      let w2 := alert "Order placed successfully!" w1
      let w3 := { w2 with app := { w2.app with cart := [] } }
      if w.app.activeTab = "orders" then fetchOrders get w3 else w3
    | (Except.error err, w1) =>
      alert "Failed to place order" { w1 with app := handleError err w1.app }

/-- Handler `addProduct`. `post` answers the `POST /products`, `get` the
`GET /products` that follows a success. -/
def addProduct (post : Exchange Unit) (get : Exchange (List Product)) (w : World) : World :=
  match request (fun _ => ResponseData.other) post
      (api.config "post" "/products" (some (Body.newProduct w.app.newProduct))) w with
  | (Except.ok _, w1) =>
    let w2 := alert "Product added!" w1
    let w3 := { w2 with app := { w2.app with
      newProduct := { name := "", price := 0, quantity := 0, description := "" } } }
    fetchProducts get w3
  | (Except.error err, w1) => { w1 with app := handleError err w1.app }

/-- Handler `deleteProduct`. `accepted` is what `window.confirm` returns,
`delete` answers the `DELETE /products/{id}`, `get` the `GET /products` that
follows a success. -/
def deleteProduct (id : Int) (accepted : Bool) (delete : Exchange Unit)
    (get : Exchange (List Product)) (w : World) : World :=
  let w0 := { w with trace := w.trace ++ [Event.confirm "Are you sure?"] }
  if !accepted then w0
  else
    match request (fun _ => ResponseData.other) delete
        (api.config "delete" ("/products/" ++ numberToString id) none) w0 with
    | (Except.ok _, w1) =>
      let w2 := alert "Product deleted!" w1
      fetchProducts get w2
    | (Except.error err, w1) => { w1 with app := handleError err w1.app }

/-- The effect registered with `useEffect`: fetch the catalog when the session
is authenticated. -/
def mount (get : Exchange (List Product)) (w : World) : World :=
  if w.keycloak.authenticated then fetchProducts get w else w

/-- Everything that can happen to a mounted component: the effect, the
handlers bound to the buttons and the form, each with the answers the outside
gives while it runs. -/
inductive Op
  | mount (get : Exchange (List Product))
  | fetchProducts (get : Exchange (List Product))
  | fetchOrders (get : Exchange (List Order))
  | addToCart (product : Product)
  | placeOrder (post : Exchange Unit) (get : Exchange (List Order))
  | addProduct (post : Exchange Unit) (get : Exchange (List Product))
  | deleteProduct (id : Int) (accepted : Bool) (delete : Exchange Unit)
      (get : Exchange (List Product))
  | showProducts
  | showOrders (get : Exchange (List Order))
  | setNewProduct (draft : NewProduct)

/-- One operation on the component. -/
def step (w : World) : Op → World
  | Op.mount get => mount get w
  | Op.fetchProducts get => fetchProducts get w
  | Op.fetchOrders get => fetchOrders get w
  | Op.addToCart product => { w with app := { w.app with cart := addToCart product w.app.cart } }
  | Op.placeOrder post get => placeOrder post get w
  | Op.addProduct post get => addProduct post get w
  | Op.deleteProduct id accepted delete get => deleteProduct id accepted delete get w
  | Op.showProducts => { w with app := { w.app with activeTab := "products" } }
  | Op.showOrders get => fetchOrders get { w with app := { w.app with activeTab := "orders" } }
  | Op.setNewProduct draft => { w with app := { w.app with newProduct := draft } }

/-- A sequence of operations from a given world. -/
def run (w : World) (ops : List Op) : World :=
  ops.foldl step w

/-! ## Vocabulary of the specification -/

/-- The four failure categories of the error taxonomy; a server error carries
the status code. -/
inductive ErrorCategory
  | Unauthorized
  | Forbidden
  | ServerError (status : Int)
  | NetworkError
  deriving DecidableEq, Repr

/-- Category of a failure by response shape, as the taxonomy words it: status
401, status 403, any other status, no response. -/
def classify (err : JSError) : ErrorCategory :=
  match err.response with
  | none => ErrorCategory.NetworkError
  | some response =>
    if response.status = 401 then ErrorCategory.Unauthorized
    else if response.status = 403 then ErrorCategory.Forbidden
    else ErrorCategory.ServerError response.status

/-- The banner text that stands for a category in the `error` state. -/
def ErrorCategory.banner : ErrorCategory → String
  | ErrorCategory.Unauthorized => "Unauthorized (401)"
  | ErrorCategory.Forbidden => "Access Denied (403)"
  | ErrorCategory.ServerError status => "Error: " ++ numberToString status
  | ErrorCategory.NetworkError => "Network Error"

/-- Result of a call through `api` answered by `x`, as the awaiting handler
sees it: the failure of the token refresh if the token was expired and its
refresh failed, otherwise the reply of the backend. It is the first component
of `request` (`request_fst`). -/
def Exchange.outcome {α : Type} (x : Exchange α) : Except JSError α :=
  if x.isTokenExpired 5 then
    match x.updateToken 30 with
    | Except.error err => Except.error err
    | Except.ok _ => x.reply
  else x.reply

/-- The role set of a session: the list `tokenParsed.realm_access.roles`, and
no role at all when any part of that path is absent. -/
def sessionRoles (keycloak : Keycloak) : List String :=
  match keycloak.tokenParsed with
  | none => []
  | some tokenParsed =>
    match tokenParsed.realm_access with
    | none => []
    | some realm_access => realm_access.roles.getD []

/-- Events that stand for a request leaving the client. -/
def Event.isDispatch : Event → Bool
  | Event.dispatch _ => true
  | _ => false

/-- Data of the last successful `GET /products` recorded in a trace, if any. -/
def lastCatalog : List Event → Option (List Product)
  | [] => none
  | Event.response config (ResponseData.products data) :: rest =>
    match lastCatalog rest with
    | some later => some later
    | none => if config.method = "get" ∧ config.url = "/products" then some data else none
  | _ :: rest => lastCatalog rest

/-- The world `w'` continues `w` with the catalog following the fetches: its
trace is the trace of `w` and further events, and its catalog is the data of
the last successful `GET /products` among those events, or the catalog of `w`
when there is none. -/
def CatalogFollows (w w' : World) : Prop :=
  ∃ events, w'.trace = w.trace ++ events ∧
    w'.app.products = (lastCatalog events).getD w.app.products

/-- An exchange in which the token is fresh and the backend gives `reply`. -/
def Exchange.fresh {α : Type} (reply : Except JSError α) : Exchange α :=
  { isTokenExpired := fun _ => false, updateToken := fun _ => Except.ok "", reply := reply }

/-- An exchange in which the token is expired, its refresh yields `token` and
the backend gives `reply`. -/
def Exchange.refreshed {α : Type} (token : String) (reply : Except JSError α) : Exchange α :=
  { isTokenExpired := fun _ => true, updateToken := fun _ => Except.ok token, reply := reply }

/-- An exchange in which the token is expired and its refresh fails with
`err`; the backend would have given `reply`. -/
def Exchange.refreshFails {α : Type} (err : JSError) (reply : Except JSError α) : Exchange α :=
  { isTokenExpired := fun _ => true, updateToken := fun _ => Except.error err, reply := reply }

/-- Number of calls in a sequence of `addToCart` calls whose product has id
`p`. -/
def callsNaming (p : Int) (calls : List Product) : Nat :=
  calls.countP (fun product => product.id = p)

/-- Product ids in order of first add: each id once, at the place of its first
occurrence. -/
def firstAdds (ids : List Int) : List Int :=
  ids.foldl (fun seen id => if id ∈ seen then seen else seen ++ [id]) []

/-- Ids whose key is an array index: the integers from `0` to `2^32 - 2`. -/
def isIndexId (id : Int) : Bool :=
  decide (0 ≤ id ∧ id < 2 ^ 32 - 1)

/-- The order in which the ids of a sequence of adds are enumerated: the
array-index ids ascending, then the other ids in order of first add. -/
def lineOrder (ids : List Int) : List Int :=
  ((firstAdds ids).filter isIndexId).insertionSort (· ≤ ·)
    ++ (firstAdds ids).filter (fun id => !isIndexId id)

/-- The line of product `a` stands before the line of product `b` in a list
of order lines. -/
def linePrecedes (lines : List OrderLine) (a b : Int) : Prop :=
  List.Sublist [some a, some b] (lines.map (fun line => line.productId))

/-- Product `a` was first added to the cart before product `b` was first
added, in a sequence of `addToCart` calls. -/
def addedBefore (calls : List Product) (a b : Int) : Prop :=
  List.Sublist [a, b] (firstAdds (calls.map (fun p => p.id)))

/-! ## Number keys: printing and parsing back -/

theorem digitValue_digitChar (k : Nat) (hk : k < 10) :
    digitValue (Nat.digitChar k) = some k ∧ IsDecimalDigit (Nat.digitChar k) := by
  interval_cases k <;> exact ⟨by decide, by unfold IsDecimalDigit; decide⟩

theorem toDigitsCore_append (fuel : Nat) :
    ∀ (n : Nat) (ds : List Char),
      Nat.toDigitsCore 10 fuel n ds = Nat.toDigitsCore 10 fuel n [] ++ ds := by
  induction fuel with
  | zero => intro n ds; simp [Nat.toDigitsCore]
  | succ f ih =>
    intro n ds
    simp only [Nat.toDigitsCore]
    split
    · simp
    · rw [ih (n / 10) (Nat.digitChar (n % 10) :: ds), ih (n / 10) [Nat.digitChar (n % 10)]]
      simp

theorem digitsValue_append_singleton (R : Nat) (Z : List Char) (c : Char) :
    digitsValue R (Z ++ [c]) = digitsValue R Z * R + (digitValue c).getD 0 := by
  simp [digitsValue, List.foldl_append]

theorem toDigitsCore_spec (fuel : Nat) :
    ∀ n : Nat, n < fuel →
      (∀ c ∈ Nat.toDigitsCore 10 fuel n [], IsDecimalDigit c) ∧
      digitsValue 10 (Nat.toDigitsCore 10 fuel n []) = n ∧
      Nat.toDigitsCore 10 fuel n [] ≠ [] := by
  induction fuel with
  | zero => intro n hn; omega
  | succ f ih =>
    intro n hn
    have hd := digitValue_digitChar (n % 10) (Nat.mod_lt _ (by norm_num))
    simp only [Nat.toDigitsCore]
    split
    · rename_i h0
      refine ⟨?_, ?_, by simp⟩
      · intro c hc
        simp only [List.mem_singleton] at hc
        subst hc
        exact hd.2
      · have : digitsValue 10 [Nat.digitChar (n % 10)] = n % 10 := by
          simp [digitsValue, hd.1]
        rw [this]
        omega
    · rename_i h0
      have hlt : n / 10 < f := by omega
      obtain ⟨h1, h2, h3⟩ := ih (n / 10) hlt
      rw [toDigitsCore_append f (n / 10) [Nat.digitChar (n % 10)]]
      refine ⟨?_, ?_, by simp⟩
      · intro c hc
        rcases List.mem_append.1 hc with hc | hc
        · exact h1 c hc
        · simp only [List.mem_singleton] at hc
          subst hc
          exact hd.2
      · rw [digitsValue_append_singleton, h2, hd.1]
        simp only [Option.getD_some]
        omega

theorem toDigits_spec (n : Nat) :
    (∀ c ∈ Nat.toDigits 10 n, IsDecimalDigit c) ∧ digitsValue 10 (Nat.toDigits 10 n) = n ∧
      Nat.toDigits 10 n ≠ [] :=
  toDigitsCore_spec (n + 1) n (Nat.lt_succ_self n)

theorem IsDecimalDigit.not_whiteSpace {c : Char} (h : IsDecimalDigit c) :
    isWhiteSpace c = false := by
  unfold IsDecimalDigit at h
  simp only [isWhiteSpace, Bool.or_eq_false_iff, Bool.and_eq_false_iff, decide_eq_false_iff_not]
  omega

theorem IsDecimalDigit.radixDigit {c : Char} (h : IsDecimalDigit c) :
    isRadixDigit 10 c = true := by
  unfold IsDecimalDigit at h
  have : digitValue c = some (c.toNat - 48) := by simp [digitValue, h]
  simp only [isRadixDigit, this, decide_eq_true_eq]
  omega

theorem IsDecimalDigit.ne_of_toNat {c d : Char} (h : IsDecimalDigit c)
    (hd : d.toNat < 48 ∨ 57 < d.toNat) : c ≠ d := by
  rintro rfl
  unfold IsDecimalDigit at h
  omega

theorem parseSign_digits (c : Char) (rest : List Char) (h : IsDecimalDigit c) :
    parseSign (c :: rest) = (1, c :: rest) := by
  have h1 : c ≠ '-' := h.ne_of_toNat (by decide)
  have h2 : c ≠ '+' := h.ne_of_toNat (by decide)
  unfold parseSign
  split
  · rename_i heq; exact absurd (List.cons.inj heq).1 h1
  · rename_i heq; exact absurd (List.cons.inj heq).1 h2
  · rfl

theorem parseRadix_digits (Z : List Char) (h : ∀ c ∈ Z, IsDecimalDigit c) :
    parseRadix Z = (10, Z) := by
  unfold parseRadix
  split
  · rename_i r
    exact absurd rfl ((h 'x' (by simp)).ne_of_toNat (by decide))
  · rename_i r
    exact absurd rfl ((h 'X' (by simp)).ne_of_toNat (by decide))
  · rfl

theorem parseInt_digits (Z : List Char) (h : ∀ c ∈ Z, IsDecimalDigit c) (hne : Z ≠ []) :
    parseInt (String.mk Z) = some (digitsValue 10 Z : Int) ∧
      parseInt (String.mk ('-' :: Z)) = some (-(digitsValue 10 Z : Int)) := by
  have htake : Z.takeWhile (isRadixDigit 10) = Z :=
    List.takeWhile_eq_self_iff.2 (fun c hc => (h c hc).radixDigit)
  have hemp : Z.isEmpty = false := by
    cases Z with
    | nil => exact absurd rfl hne
    | cons c rest => rfl
  constructor
  · have hdrop : Z.dropWhile isWhiteSpace = Z := by
      cases Z with
      | nil => rfl
      | cons c rest => exact List.dropWhile_cons_of_neg (by simp [(h c (by simp)).not_whiteSpace])
    have hsign : parseSign Z = (1, Z) := by
      cases Z with
      | nil => rfl
      | cons c rest => exact parseSign_digits c rest (h c (by simp))
    simp [parseInt, hdrop, hsign, parseRadix_digits Z h, htake, hemp]
  · have hdrop : ('-' :: Z).dropWhile isWhiteSpace = '-' :: Z :=
      List.dropWhile_cons_of_neg (by decide)
    have hsign : parseSign ('-' :: Z) = (-1, Z) := rfl
    simp [parseInt, hdrop, hsign, parseRadix_digits Z h, htake, hemp]

/-- Parsing the key of an integer gives the integer back. -/
theorem parseInt_numberToString (n : Int) : parseInt (numberToString n) = some n := by
  cases n with
  | ofNat m =>
    obtain ⟨h1, h2, h3⟩ := toDigits_spec m
    rw [numberToString, (parseInt_digits _ h1 h3).1, h2]
    rfl
  | negSucc m =>
    obtain ⟨h1, h2, h3⟩ := toDigits_spec (m + 1)
    rw [numberToString, (parseInt_digits _ h1 h3).2, h2]
    rfl

/-- Distinct integers have distinct keys. -/
theorem numberToString_injective : Function.Injective numberToString := by
  intro a b hab
  have := parseInt_numberToString a
  rw [hab, parseInt_numberToString b] at this
  exact (Option.some.inj this).symm

/-! ## Property reads after spread and write -/

theorem arrayIndex?_eq_some {k : String} {n : Nat} (h : arrayIndex? k = some n) :
    numberToString (Int.ofNat n) = k ∧ n < 2 ^ 32 - 1 := by
  unfold arrayIndex? at h
  simp only at h
  split at h
  · rename_i hc
    cases h
    exact hc
  · cases h

theorem digitsValue_numberToString (n : Nat) :
    digitsValue 10 (numberToString (Int.ofNat n)).data = n :=
  (toDigits_spec n).2.1

theorem arrayIndex?_numberToString_ofNat (n : Nat) :
    arrayIndex? (numberToString (Int.ofNat n)) = if n < 2 ^ 32 - 1 then some n else none := by
  unfold arrayIndex?
  simp only [digitsValue_numberToString, true_and]

theorem arrayIndex?_numberToString_negSucc (m : Nat) :
    arrayIndex? (numberToString (Int.negSucc m)) = none := by
  unfold arrayIndex?
  simp only
  rw [if_neg]
  rintro ⟨h, -⟩
  exact absurd (numberToString_injective h) (by simp)

theorem mem_keys (o : JSObject) (k : String) :
    k ∈ Object.keys o ↔ k ∈ o.map Prod.fst := by
  unfold Object.keys ownKeyOrder
  simp only [List.mem_append, List.mem_map, List.mem_filter, List.mem_insertionSort,
    List.mem_filterMap]
  constructor
  · rintro (⟨n, ⟨k', hk', hn⟩, rfl⟩ | ⟨h, -⟩)
    · rw [(arrayIndex?_eq_some hn).1]
      exact hk'
    · exact h
  · intro h
    cases hidx : arrayIndex? k with
    | none => exact Or.inr ⟨h, by simp⟩
    | some n => exact Or.inl ⟨n, ⟨k, h, hidx⟩, (arrayIndex?_eq_some hidx).1⟩

theorem lookup_cons_of_ne {α : Type} {k a : String} (b : α) (l : List (String × α)) (h : k ≠ a) :
    List.lookup k ((a, b) :: l) = List.lookup k l := by
  rw [List.lookup_cons]
  have : (k == a) = false := by simpa using h
  rw [this]

theorem lookup_cons_self {α : Type} (a : String) (b : α) (l : List (String × α)) :
    List.lookup a ((a, b) :: l) = some b := by
  simp [List.lookup_cons]

theorem lookup_eq_none_of_not_mem {α : Type} (o : List (String × α)) (k : String)
    (h : k ∉ o.map Prod.fst) :
    o.lookup k = none := by
  induction o with
  | nil => rfl
  | cons e o ih =>
    obtain ⟨a, b⟩ := e
    simp only [List.map_cons, List.mem_cons, not_or] at h
    rw [lookup_cons_of_ne b o h.1]
    exact ih h.2

theorem lookup_filterMap_keys (o : JSObject) (k : String) (L : List String) :
    List.lookup k (L.filterMap (fun k' => (getProp o k').map (fun v => (k', v)))) =
      if k ∈ L then getProp o k else none := by
  induction L with
  | nil => simp
  | cons a L ih =>
    cases hv : getProp o a with
    | none =>
      rw [List.filterMap_cons_none (by simp [hv]), ih]
      by_cases hka : k = a
      · subst hka; simp [hv]
      · simp [hka]
    | some v =>
      rw [List.filterMap_cons_some (by simp [hv]; rfl)]
      by_cases hka : k = a
      · subst hka; simp [hv, lookup_cons_self]
      · rw [lookup_cons_of_ne _ _ hka, ih]
        simp [hka]

/-- Spreading an object keeps every property read. -/
theorem getProp_spread (o : JSObject) (k : String) : getProp (spread o) k = getProp o k := by
  unfold spread
  rw [getProp, lookup_filterMap_keys]
  by_cases h : k ∈ Object.keys o
  · simp [h]
  · rw [if_neg h]
    exact (lookup_eq_none_of_not_mem o k (fun hk => h ((mem_keys o k).2 hk))).symm

theorem lookup_map_write {α : Type} (o : List (String × α)) (k k' : String) (v : α) :
    List.lookup k' (o.map (fun e => if e.1 = k then (k, v) else e)) =
      if k' = k then (if k ∈ o.map Prod.fst then some v else none) else List.lookup k' o := by
  induction o with
  | nil => simp
  | cons e o ih =>
    obtain ⟨a, b⟩ := e
    by_cases hak : a = k
    · subst hak
      by_cases hk : k' = a
      · subst hk; simp [lookup_cons_self]
      · simp only [List.map_cons, if_true, lookup_cons_of_ne _ _ hk, ih, if_neg hk]
    · simp only [List.map_cons, if_neg hak]
      by_cases hk : k' = k
      · subst hk
        rw [lookup_cons_of_ne _ _ (Ne.symm hak), ih, if_pos rfl, if_pos rfl]
        by_cases hm : k' ∈ List.map Prod.fst o
        · rw [if_pos hm, if_pos (List.mem_cons_of_mem _ hm)]
        · rw [if_neg hm, if_neg]
          intro hc
          rcases List.mem_cons.1 hc with hc | hc
          · exact hak hc.symm
          · exact hm hc
      · by_cases hka : k' = a
        · subst hka; simp [lookup_cons_self, hk]
        · rw [lookup_cons_of_ne _ _ hka, lookup_cons_of_ne _ _ hka, ih]
          simp [hk]

theorem lookup_append_single {α : Type} (o : List (String × α)) (k k' : String) (v : α) :
    List.lookup k' (o ++ [(k, v)]) =
      match List.lookup k' o with
      | some w => some w
      | none => if k' = k then some v else none := by
  induction o with
  | nil =>
    by_cases h : k' = k
    · subst h; simp [lookup_cons_self]
    · simp [lookup_cons_of_ne _ _ h, h]
  | cons e o ih =>
    obtain ⟨a, b⟩ := e
    by_cases h : k' = a
    · subst h; simp [lookup_cons_self]
    · simp only [List.cons_append, lookup_cons_of_ne _ _ h, ih]

/-- A property write changes the read of the written key only. -/
theorem getProp_setProp {α : Type} (o : List (String × α)) (k k' : String) (v : α) :
    getProp (setProp o k v) k' = if k' = k then some v else getProp o k' := by
  unfold setProp getProp
  by_cases hany : k ∈ o.map Prod.fst
  · have : o.any (fun e => e.1 == k) = true := by
      simp only [List.mem_map] at hany
      obtain ⟨e, he, rfl⟩ := hany
      exact List.any_eq_true.2 ⟨e, he, by simp⟩
    rw [if_pos this, lookup_map_write]
    simp [hany]
  · have : o.any (fun e => e.1 == k) = false := by
      rw [Bool.eq_false_iff]
      intro h
      obtain ⟨e, he, hk⟩ := List.any_eq_true.1 h
      exact hany (List.mem_map.2 ⟨e, he, by simpa using hk⟩)
    rw [this, if_neg (by simp), lookup_append_single]
    by_cases hk : k' = k
    · subst hk
      rw [lookup_eq_none_of_not_mem o k' hany]
    · simp only [hk, if_false]
      cases List.lookup k' o <;> simp

/-- Reads of the cart after one `addToCart`. -/
theorem getProp_addToCart (product : Product) (prev : JSObject) (k : String) :
    getProp (addToCart product prev) k =
      if k = numberToString product.id then some (orZero (getProp prev k) + 1)
      else getProp prev k := by
  unfold addToCart
  rw [getProp_setProp, getProp_spread]
  by_cases h : k = numberToString product.id
  · subst h; simp
  · simp [h]

/-! ## The cart counts the adds -/

theorem orZero_succ (n : Nat) : orZero (some (n + 1)) = n + 1 := by
  simp [orZero]

theorem callsNaming_cons (p : Int) (a : Product) (calls : List Product) :
    callsNaming p (a :: calls) = callsNaming p calls + if a.id = p then 1 else 0 := by
  unfold callsNaming
  rw [List.countP_cons]
  simp

theorem getProp_foldl_addToCart (calls : List Product) :
    ∀ (c : JSObject) (p : Int),
      getProp (calls.foldl (fun cart product => addToCart product cart) c) (numberToString p) =
        if callsNaming p calls = 0 then getProp c (numberToString p)
        else some (orZero (getProp c (numberToString p)) + callsNaming p calls) := by
  induction calls with
  | nil => intro c p; simp [callsNaming]
  | cons a calls ih =>
    intro c p
    rw [List.foldl_cons, ih (addToCart a c) p, callsNaming_cons, getProp_addToCart]
    by_cases hap : a.id = p
    · subst hap
      simp only [if_true, orZero_succ]
      by_cases h0 : callsNaming a.id calls = 0
      · simp [h0]
      · simp only [h0, if_false, Nat.add_eq_zero, one_ne_zero, and_false]
        congr 1
        omega
    · have hkey : numberToString p ≠ numberToString a.id :=
        fun h => hap (numberToString_injective h).symm
      simp only [if_neg hkey, if_neg hap, Nat.add_zero]

theorem getProp_cartAfter (calls : List Product) (p : Int) :
    getProp (cartAfter calls) (numberToString p) =
      if callsNaming p calls = 0 then none else some (callsNaming p calls) := by
  unfold cartAfter
  rw [getProp_foldl_addToCart]
  simp [getProp, orZero]

/-- C1: after any sequence of `addToCart` calls on the empty cart, the quantity
stored for a product id is the number of calls naming that id, the id being
absent when that number is zero; one `addToCart` stores the previous quantity
plus one for its product and leaves the quantity of every other product id as
it was. -/
theorem addToCart_counts_calls :
    (∀ (calls : List Product) (p : Int),
      getProp (cartAfter calls) (numberToString p) =
        if callsNaming p calls = 0 then none else some (callsNaming p calls)) ∧
    (∀ (product : Product) (prev : JSObject),
      getProp (addToCart product prev) (numberToString product.id) =
        some (orZero (getProp prev (numberToString product.id)) + 1)) ∧
    (∀ (product : Product) (prev : JSObject) (q : Int), q ≠ product.id →
      getProp (addToCart product prev) (numberToString q) = getProp prev (numberToString q)) := by
  refine ⟨getProp_cartAfter, ?_, ?_⟩
  · intro product prev
    rw [getProp_addToCart, if_pos rfl]
  · intro product prev q hq
    rw [getProp_addToCart, if_neg (fun h => hq (numberToString_injective h))]

/-- Witness of C1: adding product 7 to the cart `{"3": 2}` leaves the quantity
of product 3 at 2. -/
theorem addToCart_counts_calls_witness :
    getProp (addToCart ⟨7, "pen", 150, 9, ""⟩ [("3", 2)]) (numberToString 3) = some 2 :=
  (addToCart_counts_calls.2.2 ⟨7, "pen", 150, 9, ""⟩ [("3", 2)] 3 (by decide)).trans (by decide)

/-! ## Error classification -/

theorem handleError_eq (err : JSError) (s : AppState) :
    handleError err s = { s with error := some (classify err).banner } := by
  unfold handleError classify
  cases err.response with
  | none => rfl
  | some response =>
    simp only
    by_cases h1 : response.status = 401
    · simp only [h1, if_true]; rfl
    · by_cases h3 : response.status = 403
      · simp only [h3, if_true]; rfl
      · simp only [h1, h3, if_false]; rfl

theorem error_prefix_cancel (a b : String) (h : "Error: " ++ a = "Error: " ++ b) : a = b := by
  have := congrArg String.data h
  simp only [String.data_append, List.append_cancel_left_eq] at this
  exact String.ext this

theorem error_prefix_ne (a t : String) (ht : t.data.head? ≠ some 'E') : "Error: " ++ a ≠ t := by
  intro h
  apply ht
  rw [← h]
  simp [String.data_append]

theorem banner_injective : Function.Injective ErrorCategory.banner := by
  intro a b h
  cases a <;> cases b <;> simp only [ErrorCategory.banner] at h <;>
    first
    | rfl
    | exact absurd h (by decide)
    | exact absurd h (error_prefix_ne _ _ (by decide))
    | exact absurd h.symm (error_prefix_ne _ _ (by decide))
    | exact congrArg ErrorCategory.ServerError (numberToString_injective (error_prefix_cancel _ _ h))

/-- C2: `handleError` stores exactly one banner, decided by the response shape
alone: status 401 stores the Unauthorized banner, status 403 the Forbidden
banner, every other status the ServerError banner that ends in the status code
(`Error: 500` for 500), no response the NetworkError banner. The banner
replaces whatever error was stored and nothing else changes, and two failures
that store the same banner have the same category and status code. -/
theorem handleError_classifies :
    (∀ (err : JSError) (s : AppState),
      handleError err s = { s with error := some (classify err).banner }) ∧
    (∀ (r : Response) (s : AppState), r.status = 401 →
      (handleError ⟨some r⟩ s).error = some "Unauthorized (401)" ∧
        classify ⟨some r⟩ = ErrorCategory.Unauthorized) ∧
    (∀ (r : Response) (s : AppState), r.status = 403 →
      (handleError ⟨some r⟩ s).error = some "Access Denied (403)" ∧
        classify ⟨some r⟩ = ErrorCategory.Forbidden) ∧
    (∀ (r : Response) (s : AppState), r.status ≠ 401 → r.status ≠ 403 →
      (handleError ⟨some r⟩ s).error = some ("Error: " ++ numberToString r.status) ∧
        classify ⟨some r⟩ = ErrorCategory.ServerError r.status) ∧
    (∀ s : AppState, (handleError ⟨some ⟨500⟩⟩ s).error = some "Error: 500") ∧
    (∀ s : AppState, (handleError ⟨none⟩ s).error = some "Network Error" ∧
        classify ⟨none⟩ = ErrorCategory.NetworkError) ∧
    (∀ (e₁ e₂ : JSError) (s₁ s₂ : AppState),
      (handleError e₁ s₁).error = (handleError e₂ s₂).error → classify e₁ = classify e₂) := by
  refine ⟨handleError_eq, ?_, ?_, ?_, ?_, ?_, ?_⟩
  · intro r s h
    simp [handleError, classify, h]
  · intro r s h
    simp [handleError, classify, h]
  · intro r s h1 h3
    simp [handleError, classify, h1, h3]
  · intro s
    have hb : (classify ⟨some ⟨500⟩⟩).banner = "Error: 500" := by decide
    rw [handleError_eq, hb]
  · intro s
    exact ⟨rfl, rfl⟩
  · intro e₁ e₂ s₁ s₂ h
    rw [handleError_eq, handleError_eq] at h
    exact banner_injective (Option.some.inj h)

/-- Witness of C2: a 404 response on top of a stored network error stores
`Error: 404`, the ServerError banner. -/
theorem handleError_classifies_witness :
    (handleError ⟨some ⟨404⟩⟩ { AppState.initial with error := some "Network Error" }).error
        = some ("Error: " ++ numberToString 404) ∧
      classify ⟨some ⟨404⟩⟩ = ErrorCategory.ServerError 404 :=
  handleError_classifies.2.2.2.1 ⟨404⟩ { AppState.initial with error := some "Network Error" }
    (by decide) (by decide)

/-! ## Calls through the axios instance -/

/-- A call that resolves: Keycloak calls, then the dispatch of the decorated
configuration and the response. -/
theorem request_ok {α : Type} (wrap : α → ResponseData) (x : Exchange α) (config : RequestConfig)
    (w : World) (data : α) (h : x.outcome = Except.ok data) :
    ∃ (keycloak : Keycloak) (calls : List Event),
      (∀ e ∈ calls, e = Event.isTokenExpired 5 ∨ e = Event.updateToken 30) ∧
      request wrap x config w =
        (Except.ok data, { w with
          keycloak := keycloak,
          trace := w.trace ++ calls ++
            [Event.dispatch { config with
                headers := setProp config.headers "Authorization" ("Bearer " ++ keycloak.token) },
              Event.response { config with
                headers := setProp config.headers "Authorization" ("Bearer " ++ keycloak.token) }
                (wrap data)] }) := by
  unfold Exchange.outcome at h
  by_cases hexp : x.isTokenExpired 5 = true
  · rw [if_pos hexp] at h
    cases hupd : x.updateToken 30 with
    | error err => rw [hupd] at h; cases h
    | ok token =>
      rw [hupd] at h
      simp only at h
      refine ⟨{ w.keycloak with token := token }, [Event.isTokenExpired 5, Event.updateToken 30],
        by simp, ?_⟩
      simp [request, interceptor, hexp, hupd, h]
  · rw [if_neg hexp] at h
    refine ⟨w.keycloak, [Event.isTokenExpired 5], by simp, ?_⟩
    simp [request, interceptor, hexp, h]

/-- A call that rejects: nothing beyond Keycloak calls and at most the dispatch. -/
theorem request_error {α : Type} (wrap : α → ResponseData) (x : Exchange α)
    (config : RequestConfig) (w : World) (err : JSError) (h : x.outcome = Except.error err) :
    ∃ (keycloak : Keycloak) (events : List Event),
      (∀ e ∈ events, e = Event.isTokenExpired 5 ∨ e = Event.updateToken 30 ∨
        ∃ token, e = Event.dispatch { config with
          headers := setProp config.headers "Authorization" ("Bearer " ++ token) }) ∧
      request wrap x config w =
        (Except.error err, { w with keycloak := keycloak, trace := w.trace ++ events }) := by
  unfold Exchange.outcome at h
  by_cases hexp : x.isTokenExpired 5 = true
  · rw [if_pos hexp] at h
    cases hupd : x.updateToken 30 with
    | error err' =>
      rw [hupd] at h
      cases h
      refine ⟨w.keycloak, [Event.isTokenExpired 5, Event.updateToken 30], by simp, ?_⟩
      simp [request, interceptor, hexp, hupd]
    | ok token =>
      rw [hupd] at h
      simp only at h
      refine ⟨{ w.keycloak with token := token }, [Event.isTokenExpired 5, Event.updateToken 30,
        Event.dispatch { config with
          headers := setProp config.headers "Authorization" ("Bearer " ++ token) }],
        ?_, ?_⟩
      · intro e he
        simp only [List.mem_cons, List.mem_singleton, List.not_mem_nil, or_false] at he
        rcases he with he | he | he
        · exact Or.inl he
        · exact Or.inr (Or.inl he)
        · exact Or.inr (Or.inr ⟨token, he⟩)
      · simp [request, interceptor, hexp, hupd, h]
  · rw [if_neg hexp] at h
    refine ⟨w.keycloak, [Event.isTokenExpired 5,
      Event.dispatch { config with
        headers := setProp config.headers "Authorization" ("Bearer " ++ w.keycloak.token) }],
      ?_, ?_⟩
    · intro e he
      simp only [List.mem_cons, List.mem_singleton, List.not_mem_nil, or_false] at he
      rcases he with he | he
      · exact Or.inl he
      · exact Or.inr (Or.inr ⟨w.keycloak.token, he⟩)
    · simp [request, interceptor, hexp, h]

/-- The handler that awaits a call sees the outcome of the exchange. -/
theorem request_fst {α : Type} (wrap : α → ResponseData) (x : Exchange α) (config : RequestConfig)
    (w : World) : (request wrap x config w).1 = x.outcome := by
  cases h : x.outcome with
  | ok data =>
    obtain ⟨kc, calls, -, heq⟩ := request_ok wrap x config w data h
    rw [heq]
  | error err =>
    obtain ⟨kc, events, -, heq⟩ := request_error wrap x config w err h
    rw [heq]

/-- A call never writes the React state. -/
theorem request_app {α : Type} (wrap : α → ResponseData) (x : Exchange α) (config : RequestConfig)
    (w : World) : (request wrap x config w).2.app = w.app := by
  cases h : x.outcome with
  | ok data =>
    obtain ⟨kc, calls, -, heq⟩ := request_ok wrap x config w data h
    rw [heq]
  | error err =>
    obtain ⟨kc, events, -, heq⟩ := request_error wrap x config w err h
    rw [heq]

theorem handleError_cart (err : JSError) (s : AppState) : (handleError err s).cart = s.cart := by
  rw [handleError_eq]

theorem fetchOrders_cart (get : Exchange (List Order)) (w : World) :
    (fetchOrders get w).app.cart = w.app.cart := by
  unfold fetchOrders
  have happ := request_app ResponseData.orders get (api.config "get" "/orders" none) w
  split
  · rename_i data w1 heq
    rw [heq] at happ
    simp only at happ
    simp [happ]
  · rename_i err w1 heq
    rw [heq] at happ
    simp only at happ
    simp [handleError_cart, happ]

/-! ## Placing an order -/

theorem orderLines_ne_nil (cart : JSObject) (h : cart ≠ []) : (orderLines cart).length ≠ 0 := by
  cases cart with
  | nil => exact absurd rfl h
  | cons e rest =>
    have hmem : e.1 ∈ Object.keys (e :: rest) := (mem_keys _ _).2 (by simp)
    intro hlen
    have hnil : Object.keys (e :: rest) = [] := by
      simpa [orderLines] using hlen
    rw [hnil] at hmem
    exact absurd hmem (List.not_mem_nil _)

theorem placeOrder_of_error (post : Exchange Unit) (get : Exchange (List Order)) (w : World)
    (h : w.app.cart ≠ []) (err : JSError) (herr : post.outcome = Except.error err) :
    (placeOrder post get w).app = handleError err w.app := by
  obtain ⟨kc, events, -, heq⟩ := request_error (fun _ => ResponseData.other) post
    (api.config "post" "/orders" (some (Body.orderLines (orderLines w.app.cart)))) w err herr
  unfold placeOrder
  simp only [if_neg (orderLines_ne_nil _ h), heq]
  rfl

theorem placeOrder_of_ok (post : Exchange Unit) (get : Exchange (List Order)) (w : World)
    (h : w.app.cart ≠ []) (u : Unit) (hok : post.outcome = Except.ok u) :
    (placeOrder post get w).app.cart = [] := by
  obtain ⟨kc, calls, -, heq⟩ := request_ok (fun _ => ResponseData.other) post
    (api.config "post" "/orders" (some (Body.orderLines (orderLines w.app.cart)))) w u hok
  unfold placeOrder
  simp only [if_neg (orderLines_ne_nil _ h), heq]
  split
  · rw [fetchOrders_cart]
  · rfl

/-- C3: with a non-empty cart, a `placeOrder` whose `POST /orders` fails (the
token refresh or the backend) leaves the cart, and so its order lines, as they
were, and a `placeOrder` whose `POST /orders` succeeds leaves the cart empty,
with no order lines. The outcome meant is the one the handler awaits. -/
theorem placeOrder_cart (post : Exchange Unit) (get : Exchange (List Order)) (w : World)
    (h : w.app.cart ≠ []) :
    (request (fun _ => ResponseData.other) post
        (api.config "post" "/orders" (some (Body.orderLines (orderLines w.app.cart)))) w).1
      = post.outcome ∧
    (∀ err, post.outcome = Except.error err →
      (placeOrder post get w).app.cart = w.app.cart ∧
        orderLines (placeOrder post get w).app.cart = orderLines w.app.cart) ∧
    (∀ u, post.outcome = Except.ok u →
      (placeOrder post get w).app.cart = [] ∧
        orderLines (placeOrder post get w).app.cart = []) := by
  refine ⟨request_fst _ _ _ _, ?_, ?_⟩
  · intro err herr
    have hc : (placeOrder post get w).app.cart = w.app.cart := by
      rw [placeOrder_of_error post get w h err herr, handleError_cart]
    exact ⟨hc, by rw [hc]⟩
  · intro u hok
    have hc := placeOrder_of_ok post get w h u hok
    exact ⟨hc, by rw [hc]; rfl⟩

/-- C4: `placeOrder` on an empty cart returns at once: the world after is the
world before, so no Keycloak call, no request, no dialog, and cart, orders,
error and active tab are what they were. -/
theorem placeOrder_empty_cart (post : Exchange Unit) (get : Exchange (List Order)) (w : World)
    (h : w.app.cart = []) : placeOrder post get w = w := by
  unfold placeOrder
  rw [h]
  rfl

/-- Witness of C3: with the cart `{"3": 2}` and a backend that answers 500, the
cart is still `{"3": 2}` after `placeOrder`. -/
theorem placeOrder_cart_witness :
    ({ World.initial ⟨true, "t0", none⟩ with
        app := { AppState.initial with cart := [("3", 2)] } } : World).app.cart ≠ [] ∧
      (placeOrder (Exchange.fresh (Except.error ⟨some ⟨500⟩⟩)) (Exchange.fresh (Except.ok []))
        { World.initial ⟨true, "t0", none⟩ with
          app := { AppState.initial with cart := [("3", 2)] } }).app.cart = [("3", 2)] :=
  ⟨by decide,
    ((placeOrder_cart (Exchange.fresh (Except.error ⟨some ⟨500⟩⟩)) (Exchange.fresh (Except.ok []))
      { World.initial ⟨true, "t0", none⟩ with
        app := { AppState.initial with cart := [("3", 2)] } } (by decide)).2.1
      ⟨some ⟨500⟩⟩ rfl).1⟩

/-- Witness of C4: `placeOrder` on the freshly mounted component, whose cart is
empty, changes nothing even when the token is expired. -/
theorem placeOrder_empty_cart_witness :
    (World.initial ⟨true, "t0", none⟩).app.cart = [] ∧
      placeOrder (Exchange.refreshed "t1" (Except.ok ())) (Exchange.fresh (Except.ok []))
        (World.initial ⟨true, "t0", none⟩) = World.initial ⟨true, "t0", none⟩ :=
  ⟨rfl, placeOrder_empty_cart _ _ _ rfl⟩

/-! ## The admin flag -/

theorem isAdmin_eq_some_true (keycloak : Keycloak) :
    isAdmin keycloak = some true ↔ "ADMIN" ∈ sessionRoles keycloak := by
  obtain ⟨authenticated, token, tokenParsed⟩ := keycloak
  cases tokenParsed with
  | none => simp [isAdmin, sessionRoles]
  | some tokenParsed =>
    obtain ⟨preferred_username, realm_access⟩ := tokenParsed
    cases realm_access with
    | none => simp [isAdmin, sessionRoles]
    | some realm_access =>
      obtain ⟨roles⟩ := realm_access
      cases roles with
      | none => simp [isAdmin, sessionRoles]
      | some roles => simp [isAdmin, sessionRoles]

theorem truthy_isAdmin (keycloak : Keycloak) :
    truthy (isAdmin keycloak) = decide ("ADMIN" ∈ sessionRoles keycloak) := by
  have h := isAdmin_eq_some_true keycloak
  cases hv : isAdmin keycloak with
  | none =>
    rw [hv] at h
    have hn : "ADMIN" ∉ sessionRoles keycloak := fun hm => by simpa using h.2 hm
    simp [truthy, hn]
  | some b =>
    rw [hv] at h
    cases b with
    | true => simp [truthy, h.1 rfl]
    | false =>
      have hn : "ADMIN" ∉ sessionRoles keycloak := fun hm => by simpa using h.2 hm
      simp [truthy, hn]

/-- C5: `isAdmin`, as every guard `isAdmin && ...` of the render reads it, is
true if and only if the role set of the session
(`tokenParsed.realm_access.roles`) contains `ADMIN`, and is false otherwise,
also when `tokenParsed`, `realm_access` or `roles` is absent. With a role list
present the value is the boolean answer of `includes`. Roles `USER, ADMIN` give
true, roles `USER` give false, no `tokenParsed` gives false. -/
theorem isAdmin_by_roles :
    (∀ keycloak : Keycloak,
      truthy (isAdmin keycloak) = true ↔ "ADMIN" ∈ sessionRoles keycloak) ∧
    (∀ keycloak : Keycloak,
      truthy (isAdmin keycloak) = false ↔ "ADMIN" ∉ sessionRoles keycloak) ∧
    (∀ (keycloak : Keycloak) (tokenParsed : TokenParsed) (realm_access : RealmAccess)
        (roles : List String),
      keycloak.tokenParsed = some tokenParsed → tokenParsed.realm_access = some realm_access →
      realm_access.roles = some roles →
        isAdmin keycloak = some (decide ("ADMIN" ∈ roles)) ∧ sessionRoles keycloak = roles) ∧
    (∀ keycloak : Keycloak, keycloak.tokenParsed = none →
      truthy (isAdmin keycloak) = false) ∧
    (∀ (keycloak : Keycloak) (tokenParsed : TokenParsed),
      keycloak.tokenParsed = some tokenParsed → tokenParsed.realm_access = none →
        truthy (isAdmin keycloak) = false) ∧
    (∀ (keycloak : Keycloak) (tokenParsed : TokenParsed) (realm_access : RealmAccess),
      keycloak.tokenParsed = some tokenParsed → tokenParsed.realm_access = some realm_access →
      realm_access.roles = none → truthy (isAdmin keycloak) = false) ∧
    (∀ keycloak : Keycloak, isAdmin keycloak = some true ↔ "ADMIN" ∈ sessionRoles keycloak) ∧
    truthy (isAdmin ⟨true, "t0", some ⟨some "ann", some ⟨some ["USER", "ADMIN"]⟩⟩⟩) = true ∧
    truthy (isAdmin ⟨true, "t0", some ⟨some "bob", some ⟨some ["USER"]⟩⟩⟩) = false ∧
    truthy (isAdmin ⟨false, "", none⟩) = false := by
  refine ⟨?_, ?_, ?_, ?_, ?_, ?_, isAdmin_eq_some_true, by decide, by decide, by decide⟩
  · intro keycloak
    rw [truthy_isAdmin, decide_eq_true_eq]
  · intro keycloak
    rw [truthy_isAdmin, decide_eq_false_iff_not]
  · intro keycloak tokenParsed realm_access roles h1 h2 h3
    simp [isAdmin, sessionRoles, h1, h2, h3]
  · intro keycloak h1
    simp [isAdmin, truthy, h1]
  · intro keycloak tokenParsed h1 h2
    simp [isAdmin, truthy, h1, h2]
  · intro keycloak tokenParsed realm_access h1 h2 h3
    simp [isAdmin, truthy, h1, h2, h3]

/-- Witness of C5: a session without `realm_access` in its token is not an
admin session. -/
theorem isAdmin_by_roles_witness :
    truthy (isAdmin ⟨true, "t0", some ⟨some "cy", none⟩⟩) = false :=
  isAdmin_by_roles.2.2.2.2.1 ⟨true, "t0", some ⟨some "cy", none⟩⟩ ⟨some "cy", none⟩ rfl rfl

/-! ## The request interceptor -/

/-- C8: the interceptor first calls `keycloak.isTokenExpired(5)`. If the answer
is no, it returns the request with `Authorization` set to `Bearer ` and the
session token. If the answer is yes it calls `keycloak.updateToken(30)`; when
that fails the failure is the result and the request is never dispatched; when
it succeeds the request is returned with `Authorization` set to `Bearer ` and
the token as it is after the refresh. Whatever configuration the interceptor
returns is the one dispatched, and it differs from the original in the
`Authorization` header only. -/
theorem interceptor_refreshes_then_decorates {α : Type} (x : Exchange α)
    (wrap : α → ResponseData) (config : RequestConfig) (w : World) :
    (interceptor x w.keycloak config).2.2.head? = some (Event.isTokenExpired 5) ∧
    (x.isTokenExpired 5 = false →
      interceptor x w.keycloak config =
        (Except.ok { config with
            headers := setProp config.headers "Authorization" ("Bearer " ++ w.keycloak.token) },
          w.keycloak, [Event.isTokenExpired 5])) ∧
    (∀ token, x.isTokenExpired 5 = true → x.updateToken 30 = Except.ok token →
      interceptor x w.keycloak config =
        (Except.ok { config with
            headers := setProp config.headers "Authorization" ("Bearer " ++ token) },
          { w.keycloak with token := token },
          [Event.isTokenExpired 5, Event.updateToken 30])) ∧
    (∀ err, x.isTokenExpired 5 = true → x.updateToken 30 = Except.error err →
      interceptor x w.keycloak config =
          (Except.error err, w.keycloak, [Event.isTokenExpired 5, Event.updateToken 30]) ∧
        request wrap x config w =
          (Except.error err,
            { w with trace := w.trace ++ [Event.isTokenExpired 5, Event.updateToken 30] })) ∧
    (∀ config' keycloak' calls,
      interceptor x w.keycloak config = (Except.ok config', keycloak', calls) →
        (request wrap x config w).2.keycloak = keycloak' ∧
        (request wrap x config w).2.trace =
          w.trace ++ calls ++ Event.dispatch config' ::
            (match x.reply with
              | Except.ok data => [Event.response config' (wrap data)]
              | Except.error _ => []) ∧
        config'.baseURL = config.baseURL ∧ config'.method = config.method ∧
        config'.url = config.url ∧ config'.data = config.data ∧
        getProp config'.headers "Authorization" = some ("Bearer " ++ keycloak'.token) ∧
        ∀ name, name ≠ "Authorization" →
          getProp config'.headers name = getProp config.headers name) := by
  refine ⟨?_, ?_, ?_, ?_, ?_⟩
  · unfold interceptor
    split
    · split <;> rfl
    · rfl
  · intro h
    simp [interceptor, h]
  · intro token h1 h2
    simp [interceptor, h1, h2]
  · intro err h1 h2
    simp [request, interceptor, h1, h2]
  · intro config' keycloak' calls h
    have hcfg : config' = { config with
        headers := setProp config.headers "Authorization" ("Bearer " ++ keycloak'.token) } := by
      unfold interceptor at h
      split at h
      · split at h
        · cases h
        · cases h; rfl
      · cases h; rfl
    refine ⟨?_, ?_, ?_, ?_, ?_, ?_, ?_, ?_⟩
    · unfold request
      rw [h]
      cases x.reply <;> rfl
    · unfold request
      rw [h]
      cases x.reply <;> simp
    · rw [hcfg]
    · rw [hcfg]
    · rw [hcfg]
    · rw [hcfg]
    · rw [hcfg]
      simp only
      rw [getProp_setProp, if_pos rfl]
    · intro name hname
      rw [hcfg]
      simp only
      rw [getProp_setProp, if_neg hname]

/-- Witness of C8: with the session token `old`, an expired token and a refresh
that yields `new`, a `GET /products` that already carries an `Accept` header is
returned with `Authorization: Bearer new` added. -/
theorem interceptor_refreshes_then_decorates_witness :
    interceptor (Exchange.refreshed "new" (Except.ok ([] : List Product))) ⟨true, "old", none⟩
        { api.config "get" "/products" none with headers := [("Accept", "application/json")] } =
      (Except.ok { api.config "get" "/products" none with
          headers := [("Accept", "application/json"), ("Authorization", "Bearer new")] },
        ⟨true, "new", none⟩, [Event.isTokenExpired 5, Event.updateToken 30]) :=
  ((interceptor_refreshes_then_decorates (Exchange.refreshed "new" (Except.ok []))
      ResponseData.products
      { api.config "get" "/products" none with headers := [("Accept", "application/json")] }
      (World.initial ⟨true, "old", none⟩)).2.2.1 "new" rfl rfl).trans rfl

/-! ## The catalog follows the fetches -/

theorem lastCatalog_cons_quiet (e : Event) (rest : List Event)
    (h : ∀ c d, e ≠ Event.response c (ResponseData.products d)) :
    lastCatalog (e :: rest) = lastCatalog rest := by
  cases e with
  | response c data =>
    cases data with
    | products d => exact absurd rfl (h c d)
    | orders d => rfl
    | other => rfl
  | _ => rfl

theorem lastCatalog_quiet (events : List Event)
    (h : ∀ e ∈ events, ∀ c d, e ≠ Event.response c (ResponseData.products d)) :
    lastCatalog events = none := by
  induction events with
  | nil => rfl
  | cons e rest ih =>
    rw [lastCatalog_cons_quiet e rest (h e (by simp))]
    exact ih (fun e' he' => h e' (List.mem_cons_of_mem _ he'))

theorem lastCatalog_append (a b : List Event) :
    lastCatalog (a ++ b) =
      match lastCatalog b with
      | some d => some d
      | none => lastCatalog a := by
  induction a with
  | nil =>
    rw [List.nil_append]
    cases lastCatalog b <;> rfl
  | cons e a ih =>
    by_cases hq : ∀ c d, e ≠ Event.response c (ResponseData.products d)
    · rw [List.cons_append, lastCatalog_cons_quiet e _ hq, lastCatalog_cons_quiet e _ hq, ih]
    · push_neg at hq
      obtain ⟨c, d, rfl⟩ := hq
      have key : ∀ rest, lastCatalog (Event.response c (ResponseData.products d) :: rest) =
          match lastCatalog rest with
          | some later => some later
          | none => if c.method = "get" ∧ c.url = "/products" then some d else none :=
        fun _ => rfl
      rw [List.cons_append, key, key, ih]
      cases lastCatalog b <;> rfl

theorem CatalogFollows.refl (w : World) : CatalogFollows w w :=
  ⟨[], by simp, rfl⟩

theorem CatalogFollows.trans {w₁ w₂ w₃ : World} (h₁ : CatalogFollows w₁ w₂)
    (h₂ : CatalogFollows w₂ w₃) : CatalogFollows w₁ w₃ := by
  obtain ⟨e₁, ht₁, hp₁⟩ := h₁
  obtain ⟨e₂, ht₂, hp₂⟩ := h₂
  refine ⟨e₁ ++ e₂, by rw [ht₂, ht₁, List.append_assoc], ?_⟩
  rw [hp₂, hp₁, lastCatalog_append]
  cases lastCatalog e₂ <;> rfl

theorem CatalogFollows.of_quiet {w w' : World} (events : List Event)
    (ht : w'.trace = w.trace ++ events)
    (hq : ∀ e ∈ events, ∀ c d, e ≠ Event.response c (ResponseData.products d))
    (hp : w'.app.products = w.app.products) : CatalogFollows w w' :=
  ⟨events, ht, by rw [lastCatalog_quiet events hq, hp]; rfl⟩

theorem handleError_products (err : JSError) (s : AppState) :
    (handleError err s).products = s.products := by
  rw [handleError_eq]

/-- A call whose response is not a catalog leaves the catalog. -/
theorem request_catalogFollows {α : Type} (wrap : α → ResponseData)
    (hwrap : ∀ a d, wrap a ≠ ResponseData.products d) (x : Exchange α) (config : RequestConfig)
    (w : World) : CatalogFollows w (request wrap x config w).2 := by
  cases h : x.outcome with
  | ok data =>
    obtain ⟨kc, calls, hcalls, heq⟩ := request_ok wrap x config w data h
    rw [heq]
    refine CatalogFollows.of_quiet _ (List.append_assoc _ _ _) ?_ rfl
    intro e he c d
    simp only [List.mem_append, List.mem_cons, List.mem_singleton, List.not_mem_nil,
      or_false] at he
    rcases he with he | he | he
    · rcases hcalls e he with rfl | rfl <;> simp
    · subst he; simp
    · subst he
      intro hc
      injection hc with _ hd
      exact hwrap data d hd
  | error err =>
    obtain ⟨kc, events, hev, heq⟩ := request_error wrap x config w err h
    rw [heq]
    refine CatalogFollows.of_quiet events rfl ?_ rfl
    intro e he c d
    rcases hev e he with rfl | rfl | ⟨c', rfl⟩ <;> simp

theorem fetchProducts_of_ok (get : Exchange (List Product)) (w : World) (data : List Product)
    (h : get.outcome = Except.ok data) :
    (fetchProducts get w).app = { w.app with products := data, error := none } := by
  obtain ⟨kc, calls, -, heq⟩ := request_ok ResponseData.products get
    (api.config "get" "/products" none) w data h
  unfold fetchProducts
  rw [heq]

theorem fetchProducts_of_error (get : Exchange (List Product)) (w : World) (err : JSError)
    (h : get.outcome = Except.error err) :
    (fetchProducts get w).app = handleError err w.app := by
  obtain ⟨kc, events, -, heq⟩ := request_error ResponseData.products get
    (api.config "get" "/products" none) w err h
  unfold fetchProducts
  rw [heq]

theorem fetchProducts_catalogFollows (get : Exchange (List Product)) (w : World) :
    CatalogFollows w (fetchProducts get w) := by
  cases h : get.outcome with
  | ok data =>
    obtain ⟨kc, calls, hcalls, heq⟩ := request_ok ResponseData.products get
      (api.config "get" "/products" none) w data h
    unfold fetchProducts
    rw [heq]
    refine ⟨_, List.append_assoc _ _ _, ?_⟩
    rw [lastCatalog_append]
    rfl
  | error err =>
    obtain ⟨kc, events, hev, heq⟩ := request_error ResponseData.products get
      (api.config "get" "/products" none) w err h
    unfold fetchProducts
    rw [heq]
    refine CatalogFollows.of_quiet events rfl ?_ (handleError_products _ _)
    intro e he c d
    rcases hev e he with rfl | rfl | ⟨c', rfl⟩ <;> simp

theorem fetchOrders_catalogFollows (get : Exchange (List Order)) (w : World) :
    CatalogFollows w (fetchOrders get w) ∧ (fetchOrders get w).app.products = w.app.products := by
  have hreq := request_catalogFollows ResponseData.orders (by simp) get
    (api.config "get" "/orders" none) w
  have happ := request_app ResponseData.orders get (api.config "get" "/orders" none) w
  obtain ⟨events, ht, hp⟩ := hreq
  unfold fetchOrders
  split
  · rename_i data w1 heq
    rw [heq] at ht hp happ
    simp only at ht hp happ
    exact ⟨⟨events, ht, by simpa using hp⟩, by simp [happ]⟩
  · rename_i err w1 heq
    rw [heq] at ht hp happ
    simp only at ht hp happ
    exact ⟨⟨events, ht, by simpa [handleError_products] using hp⟩,
      by simp [handleError_products, happ]⟩

theorem alert_catalogFollows (message : String) (w : World) :
    CatalogFollows w (alert message w) :=
  CatalogFollows.of_quiet [Event.alert message] rfl (by simp) rfl

theorem placeOrder_catalogFollows (post : Exchange Unit) (get : Exchange (List Order))
    (w : World) : CatalogFollows w (placeOrder post get w) := by
  have hreq := request_catalogFollows (fun _ : Unit => ResponseData.other) (by simp) post
    (api.config "post" "/orders" (some (Body.orderLines (orderLines w.app.cart)))) w
  unfold placeOrder
  simp only
  split
  · exact CatalogFollows.refl w
  · split
    · rename_i u w1 heq
      rw [heq] at hreq
      have h2 : CatalogFollows w1
          { alert "Order placed successfully!" w1 with
            app := { (alert "Order placed successfully!" w1).app with cart := [] } } :=
        CatalogFollows.of_quiet [Event.alert "Order placed successfully!"] rfl (by simp) rfl
      split
      · exact (hreq.trans h2).trans (fetchOrders_catalogFollows get _).1
      · exact hreq.trans h2
    · rename_i err w1 heq
      rw [heq] at hreq
      refine hreq.trans (CatalogFollows.of_quiet [Event.alert "Failed to place order"] rfl
        (by simp) ?_)
      exact handleError_products err w1.app

theorem addProduct_catalogFollows (post : Exchange Unit) (get : Exchange (List Product))
    (w : World) : CatalogFollows w (addProduct post get w) := by
  have hreq := request_catalogFollows (fun _ : Unit => ResponseData.other) (by simp) post
    (api.config "post" "/products" (some (Body.newProduct w.app.newProduct))) w
  unfold addProduct
  split
  · rename_i u w1 heq
    rw [heq] at hreq
    have h2 : CatalogFollows w1
        { alert "Product added!" w1 with
          app := { (alert "Product added!" w1).app with
            newProduct := { name := "", price := 0, quantity := 0, description := "" } } } :=
      CatalogFollows.of_quiet [Event.alert "Product added!"] rfl (by simp) rfl
    exact (hreq.trans h2).trans (fetchProducts_catalogFollows get _)
  · rename_i err w1 heq
    rw [heq] at hreq
    exact hreq.trans (CatalogFollows.of_quiet [] (by simp) (by simp)
      (handleError_products err w1.app))

theorem deleteProduct_catalogFollows (id : Int) (accepted : Bool) (delete : Exchange Unit)
    (get : Exchange (List Product)) (w : World) :
    CatalogFollows w (deleteProduct id accepted delete get w) := by
  have h0 : CatalogFollows w { w with trace := w.trace ++ [Event.confirm "Are you sure?"] } :=
    CatalogFollows.of_quiet [Event.confirm "Are you sure?"] rfl (by simp) rfl
  have hreq := request_catalogFollows (fun _ : Unit => ResponseData.other) (by simp) delete
    (api.config "delete" ("/products/" ++ numberToString id) none)
    { w with trace := w.trace ++ [Event.confirm "Are you sure?"] }
  unfold deleteProduct
  simp only
  split
  · exact h0
  · split
    · rename_i u w1 heq
      rw [heq] at hreq
      exact ((h0.trans hreq).trans (alert_catalogFollows _ _)).trans
        (fetchProducts_catalogFollows get _)
    · rename_i err w1 heq
      rw [heq] at hreq
      exact (h0.trans hreq).trans (CatalogFollows.of_quiet [] (by simp) (by simp)
        (handleError_products err w1.app))

theorem step_catalogFollows (w : World) (op : Op) : CatalogFollows w (step w op) := by
  cases op with
  | mount get =>
    simp only [step, mount]
    split
    · exact fetchProducts_catalogFollows get w
    · exact CatalogFollows.refl w
  | fetchProducts get => exact fetchProducts_catalogFollows get w
  | fetchOrders get => exact (fetchOrders_catalogFollows get w).1
  | addToCart product => exact CatalogFollows.of_quiet [] (by simp [step]) (by simp) rfl
  | placeOrder post get => exact placeOrder_catalogFollows post get w
  | addProduct post get => exact addProduct_catalogFollows post get w
  | deleteProduct id accepted delete get =>
    exact deleteProduct_catalogFollows id accepted delete get w
  | showProducts => exact CatalogFollows.of_quiet [] (by simp [step]) (by simp) rfl
  | showOrders get =>
    have h1 : CatalogFollows w { w with app := { w.app with activeTab := "orders" } } :=
      CatalogFollows.of_quiet [] (by simp) (by simp) rfl
    exact h1.trans (fetchOrders_catalogFollows get _).1
  | setNewProduct draft => exact CatalogFollows.of_quiet [] (by simp [step]) (by simp) rfl

theorem run_catalogFollows (ops : List Op) : ∀ w : World, CatalogFollows w (run w ops) := by
  induction ops with
  | nil => intro w; exact CatalogFollows.refl w
  | cons op ops ih =>
    intro w
    exact (step_catalogFollows w op).trans (ih (step w op))

theorem placeOrder_products (post : Exchange Unit) (get : Exchange (List Order)) (w : World) :
    (placeOrder post get w).app.products = w.app.products := by
  have happ := request_app (fun _ : Unit => ResponseData.other) post
    (api.config "post" "/orders" (some (Body.orderLines (orderLines w.app.cart)))) w
  unfold placeOrder
  simp only
  split
  · rfl
  · split
    · rename_i u w1 heq
      rw [heq] at happ
      simp only at happ
      split
      · rw [(fetchOrders_catalogFollows get _).2]
        simp [alert, happ]
      · simp [alert, happ]
    · rename_i err w1 heq
      rw [heq] at happ
      simp only at happ
      simp [alert, handleError_products, happ]

/-- C10: in every world reached from the freshly mounted component by any
operations with any answers of the outside, the catalog is the data of the last
successful `GET /products` in the trace, and empty when there is none. Each
operation leaves the catalog alone or replaces it wholesale by such data; a
successful `fetchProducts` stores the response and clears the error, a failed
one stores the classified error and keeps the catalog; adding to the cart,
fetching orders, placing an order, switching tabs and editing the form never
write it. -/
theorem catalog_is_last_fetch :
    (∀ (keycloak : Keycloak) (ops : List Op),
      (run (World.initial keycloak) ops).app.products =
        (lastCatalog (run (World.initial keycloak) ops).trace).getD []) ∧
    (∀ (w : World) (op : Op), CatalogFollows w (step w op)) ∧
    (∀ (get : Exchange (List Product)) (w : World) (data : List Product),
      get.outcome = Except.ok data →
        (fetchProducts get w).app = { w.app with products := data, error := none }) ∧
    (∀ (get : Exchange (List Product)) (w : World) (err : JSError),
      get.outcome = Except.error err →
        (fetchProducts get w).app = { w.app with error := some (classify err).banner }) ∧
    (∀ (w : World) (product : Product),
      (step w (Op.addToCart product)).app.products = w.app.products) ∧
    (∀ (w : World) (get : Exchange (List Order)),
      (step w (Op.fetchOrders get)).app.products = w.app.products) ∧
    (∀ (w : World) (post : Exchange Unit) (get : Exchange (List Order)),
      (step w (Op.placeOrder post get)).app.products = w.app.products) ∧
    (∀ w : World, (step w Op.showProducts).app.products = w.app.products) ∧
    (∀ (w : World) (get : Exchange (List Order)),
      (step w (Op.showOrders get)).app.products = w.app.products) ∧
    (∀ (w : World) (draft : NewProduct),
      (step w (Op.setNewProduct draft)).app.products = w.app.products) ∧
    (∀ (get : Exchange (List Product)) (w : World),
      (request ResponseData.products get (api.config "get" "/products" none) w).1
        = get.outcome) := by
  refine ⟨?_, step_catalogFollows, fetchProducts_of_ok, ?_, ?_, ?_, ?_, ?_, ?_, ?_,
    fun get w => request_fst _ _ _ _⟩
  · intro keycloak ops
    obtain ⟨events, ht, hp⟩ := run_catalogFollows ops (World.initial keycloak)
    rw [hp, ht]
    rfl
  · intro get w err h
    rw [fetchProducts_of_error get w err h, handleError_eq]
  · intro w product; rfl
  · intro w get; exact (fetchOrders_catalogFollows get w).2
  · intro w post get; exact placeOrder_products post get w
  · intro w; rfl
  · intro w get
    exact (fetchOrders_catalogFollows get _).2
  · intro w draft; rfl

/-- Witness of C10: with a fresh token and a backend that answers the catalog
with one product, `fetchProducts` on the freshly mounted component stores that
product and no error. -/
theorem catalog_is_last_fetch_witness :
    (fetchProducts (Exchange.fresh (Except.ok [⟨3, "pen", 150, 9, ""⟩]))
        (World.initial ⟨true, "t0", none⟩)).app =
      { AppState.initial with products := [⟨3, "pen", 150, 9, ""⟩], error := none } :=
  catalog_is_last_fetch.2.2.1 (Exchange.fresh (Except.ok [⟨3, "pen", 150, 9, ""⟩]))
    (World.initial ⟨true, "t0", none⟩) [⟨3, "pen", 150, 9, ""⟩] rfl

/-! ## Deleting a product -/

theorem deleteProduct_trace (id : Int) (accepted : Bool) (delete : Exchange Unit)
    (get : Exchange (List Product)) (w : World) :
    ∃ rest, (deleteProduct id accepted delete get w).trace =
      w.trace ++ Event.confirm "Are you sure?" :: rest := by
  cases accepted with
  | false => exact ⟨[], rfl⟩
  | true =>
    have hreq := request_catalogFollows (fun _ : Unit => ResponseData.other) (by simp) delete
      (api.config "delete" ("/products/" ++ numberToString id) none)
      { w with trace := w.trace ++ [Event.confirm "Are you sure?"] }
    obtain ⟨e1, ht1, -⟩ := hreq
    unfold deleteProduct
    simp only [Bool.not_true, Bool.false_eq_true, if_false]
    split
    · rename_i u w1 heq
      rw [heq] at ht1
      simp only at ht1
      obtain ⟨e2, ht2, -⟩ := fetchProducts_catalogFollows get (alert "Product deleted!" w1)
      refine ⟨e1 ++ Event.alert "Product deleted!" :: e2, ?_⟩
      rw [ht2]
      simp [alert, ht1]
    · rename_i err w1 heq
      rw [heq] at ht1
      simp only at ht1
      exact ⟨e1, by simp [ht1]⟩

theorem deleteProduct_of_ok (id : Int) (delete : Exchange Unit) (get : Exchange (List Product))
    (w : World) (u : Unit) (h : delete.outcome = Except.ok u) :
    ∃ (calls : List Event) (config : RequestConfig) (rest : List Event),
      (deleteProduct id true delete get w).trace =
        w.trace ++ Event.confirm "Are you sure?" :: (calls ++ Event.dispatch config :: rest) ∧
      (∀ e ∈ calls, e.isDispatch = false) ∧
      config.baseURL = "http://localhost:8085" ∧ config.method = "delete" ∧
      config.url = "/products/" ++ numberToString id ∧ config.data = none := by
  obtain ⟨kc, calls, hcalls, heq⟩ := request_ok (fun _ : Unit => ResponseData.other) delete
    (api.config "delete" ("/products/" ++ numberToString id) none)
    { w with trace := w.trace ++ [Event.confirm "Are you sure?"] } u h
  obtain ⟨e2, ht2, -⟩ := fetchProducts_catalogFollows get
    (alert "Product deleted!" (request (fun _ : Unit => ResponseData.other) delete
      (api.config "delete" ("/products/" ++ numberToString id) none)
      { w with trace := w.trace ++ [Event.confirm "Are you sure?"] }).2)
  refine ⟨calls,
    { api.config "delete" ("/products/" ++ numberToString id) none with
      headers := setProp (api.config "delete" ("/products/" ++ numberToString id) none).headers
        "Authorization" ("Bearer " ++ kc.token) },
    Event.response
      { api.config "delete" ("/products/" ++ numberToString id) none with
        headers := setProp (api.config "delete" ("/products/" ++ numberToString id) none).headers
          "Authorization" ("Bearer " ++ kc.token) } ResponseData.other ::
      Event.alert "Product deleted!" :: e2, ?_, ?_, rfl, rfl, rfl, rfl⟩
  · unfold deleteProduct
    simp only [Bool.not_true, Bool.false_eq_true, if_false]
    rw [heq] at ht2 ⊢
    simp only
    rw [ht2]
    simp [alert]
  · intro e he
    rcases hcalls e he with rfl | rfl <;> rfl

/-- C9: `deleteProduct` first asks for confirmation. When the user does not
accept, nothing else happens: no Keycloak call, no request of any kind, and the
React state (catalog, error and the rest) is what it was. In every case the
confirmation precedes everything else the handler does, and a request is
dispatched only if the confirmation was accepted; when it was accepted and the
call goes through, the first request dispatched is `DELETE /products/{id}`. -/
theorem deleteProduct_needs_confirmation (id : Int) (delete : Exchange Unit)
    (get : Exchange (List Product)) (w : World) :
    deleteProduct id false delete get w =
      { w with trace := w.trace ++ [Event.confirm "Are you sure?"] } ∧
    (∀ accepted : Bool, ∃ rest,
      (deleteProduct id accepted delete get w).trace =
        w.trace ++ Event.confirm "Are you sure?" :: rest ∧
      ((∃ e ∈ rest, e.isDispatch = true) → accepted = true)) ∧
    (∀ u : Unit, delete.outcome = Except.ok u →
      ∃ (calls : List Event) (config : RequestConfig) (rest : List Event),
        (deleteProduct id true delete get w).trace =
          w.trace ++ Event.confirm "Are you sure?" :: (calls ++ Event.dispatch config :: rest) ∧
        (∀ e ∈ calls, e.isDispatch = false) ∧
        config.baseURL = "http://localhost:8085" ∧ config.method = "delete" ∧
        config.url = "/products/" ++ numberToString id ∧ config.data = none) := by
  refine ⟨rfl, ?_, deleteProduct_of_ok id delete get w⟩
  intro accepted
  cases accepted with
  | false => exact ⟨[], rfl, by simp⟩
  | true =>
    obtain ⟨rest, h⟩ := deleteProduct_trace id true delete get w
    exact ⟨rest, h, fun _ => rfl⟩

/-- Witness of C9: `deleteProduct(5)` accepted, with a fresh token and a
backend that answers both calls, dispatches `DELETE /products/5` after the
confirmation. -/
theorem deleteProduct_needs_confirmation_witness :
    ∃ (calls : List Event) (config : RequestConfig) (rest : List Event),
      (deleteProduct 5 true (Exchange.fresh (Except.ok ())) (Exchange.fresh (Except.ok []))
          (World.initial ⟨true, "t0", none⟩)).trace =
        (World.initial ⟨true, "t0", none⟩).trace ++
          Event.confirm "Are you sure?" :: (calls ++ Event.dispatch config :: rest) ∧
      (∀ e ∈ calls, e.isDispatch = false) ∧
      config.baseURL = "http://localhost:8085" ∧ config.method = "delete" ∧
      config.url = "/products/" ++ numberToString 5 ∧ config.data = none :=
  (deleteProduct_needs_confirmation 5 (Exchange.fresh (Except.ok ()))
    (Exchange.fresh (Except.ok [])) (World.initial ⟨true, "t0", none⟩)).2.2 () rfl

/-! ## The order of the cart keys -/

theorem arrayIndex?_numberToString (id : Int) :
    arrayIndex? (numberToString id) = if isIndexId id then some id.toNat else none := by
  cases id with
  | ofNat n =>
    rw [arrayIndex?_numberToString_ofNat]
    have : isIndexId (Int.ofNat n) = decide (n < 2 ^ 32 - 1) := by
      unfold isIndexId
      simp only [Int.ofNat_eq_coe, decide_eq_decide]
      have e1 : (2 : Int) ^ 32 - 1 = 4294967295 := by norm_num
      have e2 : (2 : Nat) ^ 32 - 1 = 4294967295 := by norm_num
      rw [e1, e2]
      omega
    rw [this]
    by_cases h : n < 2 ^ 32 - 1 <;> simp [h]
  | negSucc m =>
    rw [arrayIndex?_numberToString_negSucc]
    have : isIndexId (Int.negSucc m) = false := by
      unfold isIndexId
      simp only [decide_eq_false_iff_not, not_and]
      intro h
      exact absurd h (by simp [Int.negSucc_lt_zero])
    rw [this]
    rfl

theorem filterMap_arrayIndex?_map (ks : List String) :
    (ks.filterMap arrayIndex?).map (fun n => numberToString (Int.ofNat n)) =
      ks.filter (fun k => (arrayIndex? k).isSome) := by
  induction ks with
  | nil => rfl
  | cons k ks ih =>
    cases h : arrayIndex? k with
    | none =>
      rw [List.filterMap_cons_none h, List.filter_cons_of_neg (by simp [h]), ih]
    | some n =>
      rw [List.filterMap_cons_some h, List.filter_cons_of_pos (by simp [h]), List.map_cons, ih,
        (arrayIndex?_eq_some h).1]

/-- The enumeration order is a rearrangement of the keys. -/
theorem ownKeyOrder_perm (ks : List String) : (ownKeyOrder ks).Perm ks := by
  unfold ownKeyOrder
  have h1 : (((ks.filterMap arrayIndex?).insertionSort (· ≤ ·)).map
      (fun n => numberToString (Int.ofNat n))).Perm
      (ks.filter (fun k => (arrayIndex? k).isSome)) := by
    rw [← filterMap_arrayIndex?_map]
    exact (List.perm_insertionSort _ _).map _
  have h2 : (fun k => (arrayIndex? k).isNone) = (fun k => !(arrayIndex? k).isSome) := by
    funext k
    cases arrayIndex? k <;> rfl
  rw [h2]
  exact (h1.append_right _).trans (List.filter_append_perm _ ks)

/-- The keys that are not array indices keep their creation order. -/
theorem ownKeyOrder_filter (ks : List String) :
    (ownKeyOrder ks).filter (fun k => (arrayIndex? k).isNone) =
      ks.filter (fun k => (arrayIndex? k).isNone) := by
  unfold ownKeyOrder
  rw [List.filter_append, List.filter_filter]
  have h1 : (((ks.filterMap arrayIndex?).insertionSort (· ≤ ·)).map
      (fun n => numberToString (Int.ofNat n))).filter (fun k => (arrayIndex? k).isNone) = [] := by
    rw [List.filter_eq_nil_iff]
    intro k hk
    obtain ⟨n, hn, rfl⟩ := List.mem_map.1 hk
    rw [List.mem_insertionSort, List.mem_filterMap] at hn
    obtain ⟨k', -, hk'⟩ := hn
    rw [(arrayIndex?_eq_some hk').1, hk']
    simp
  rw [h1, List.nil_append]
  congr 1
  funext k
  simp

theorem lookup_isSome_of_mem {α : Type} (o : List (String × α)) (k : String)
    (h : k ∈ o.map Prod.fst) : ∃ v, o.lookup k = some v := by
  induction o with
  | nil => simp at h
  | cons e o ih =>
    obtain ⟨a, b⟩ := e
    by_cases hka : k = a
    · subst hka
      exact ⟨b, lookup_cons_self _ _ _⟩
    · rw [lookup_cons_of_ne _ _ hka]
      simp only [List.map_cons, List.mem_cons] at h
      rcases h with h | h
      · exact absurd h hka
      · exact ih h

theorem map_fst_filterMap (o : JSObject) (L : List String)
    (h : ∀ k ∈ L, ∃ v, getProp o k = some v) :
    (L.filterMap (fun k => (getProp o k).map (fun v => (k, v)))).map Prod.fst = L := by
  induction L with
  | nil => rfl
  | cons a L ih =>
    obtain ⟨v, hv⟩ := h a (by simp)
    rw [List.filterMap_cons_some (by rw [hv]; rfl), List.map_cons,
      ih (fun k hk => h k (List.mem_cons_of_mem _ hk))]

/-- Spreading an object creates its properties in enumeration order. -/
theorem keys_spread (o : JSObject) : (spread o).map Prod.fst = Object.keys o := by
  unfold spread
  apply map_fst_filterMap
  intro k hk
  exact lookup_isSome_of_mem o k ((mem_keys o k).1 hk)

theorem keys_setProp {α : Type} (o : List (String × α)) (k : String) (v : α) :
    (setProp o k v).map Prod.fst =
      if k ∈ o.map Prod.fst then o.map Prod.fst else o.map Prod.fst ++ [k] := by
  unfold setProp
  by_cases hany : k ∈ o.map Prod.fst
  · have : o.any (fun e => e.1 == k) = true := by
      simp only [List.mem_map] at hany
      obtain ⟨e, he, rfl⟩ := hany
      exact List.any_eq_true.2 ⟨e, he, by simp⟩
    rw [if_pos this, if_pos hany, List.map_map]
    apply List.map_congr_left
    intro e _
    by_cases he : e.1 = k
    · simp [he]
    · simp [he]
  · have : o.any (fun e => e.1 == k) = false := by
      rw [Bool.eq_false_iff]
      intro h
      obtain ⟨e, he, hk⟩ := List.any_eq_true.1 h
      exact hany (List.mem_map.2 ⟨e, he, by simpa using hk⟩)
    rw [this, if_neg (by simp), if_neg hany]
    simp

theorem keys_addToCart (product : Product) (prev : JSObject) :
    (addToCart product prev).map Prod.fst =
      if numberToString product.id ∈ prev.map Prod.fst then Object.keys prev
      else Object.keys prev ++ [numberToString product.id] := by
  unfold addToCart
  rw [keys_setProp, keys_spread]
  by_cases h : numberToString product.id ∈ prev.map Prod.fst
  · rw [if_pos ((mem_keys _ _).2 h), if_pos h]
  · rw [if_neg (fun hk => h ((mem_keys _ _).1 hk)), if_neg h]

theorem firstAdds_append_singleton (ids : List Int) (x : Int) :
    firstAdds (ids ++ [x]) =
      if x ∈ firstAdds ids then firstAdds ids else firstAdds ids ++ [x] := by
  simp [firstAdds, List.foldl_append]

theorem mem_firstAdds (ids : List Int) (x : Int) : x ∈ firstAdds ids ↔ x ∈ ids := by
  induction ids using List.reverseRecOn with
  | nil => simp [firstAdds]
  | append_singleton ids y ih =>
    rw [firstAdds_append_singleton]
    by_cases hy : y ∈ firstAdds ids
    · rw [if_pos hy, List.mem_append, List.mem_singleton, ih]
      constructor
      · exact Or.inl
      · rintro (h | rfl)
        · exact h
        · exact ih.1 hy
    · rw [if_neg hy, List.mem_append, List.mem_append, ih]

theorem nodup_firstAdds (ids : List Int) : (firstAdds ids).Nodup := by
  induction ids using List.reverseRecOn with
  | nil => simp [firstAdds]
  | append_singleton ids y ih =>
    rw [firstAdds_append_singleton]
    by_cases hy : y ∈ firstAdds ids
    · rw [if_pos hy]; exact ih
    · rw [if_neg hy]
      exact List.Nodup.append ih (List.nodup_singleton y) (by simpa using hy)

theorem cartAfter_append_singleton (calls : List Product) (product : Product) :
    cartAfter (calls ++ [product]) = addToCart product (cartAfter calls) := by
  simp [cartAfter, List.foldl_append]

/-- The keys of the cart are the keys of the ids added, each once, and those
that are not array indices stand in order of first add. -/
theorem keys_cartAfter_perm (calls : List Product) :
    ((cartAfter calls).map Prod.fst).Perm
        ((firstAdds (calls.map (fun p => p.id))).map numberToString) ∧
      ((cartAfter calls).map Prod.fst).filter (fun k => (arrayIndex? k).isNone) =
        ((firstAdds (calls.map (fun p => p.id))).map numberToString).filter
          (fun k => (arrayIndex? k).isNone) := by
  induction calls using List.reverseRecOn with
  | nil => exact ⟨List.Perm.refl _, rfl⟩
  | append_singleton calls product ih =>
    obtain ⟨hperm, hfilter⟩ := ih
    have hmem : numberToString product.id ∈ (cartAfter calls).map Prod.fst ↔
        product.id ∈ firstAdds (calls.map (fun p => p.id)) := by
      rw [hperm.mem_iff, List.mem_map]
      constructor
      · rintro ⟨y, hy, hyk⟩
        rw [← numberToString_injective hyk]
        exact hy
      · intro h
        exact ⟨product.id, h, rfl⟩
    rw [cartAfter_append_singleton, keys_addToCart, List.map_append, List.map_singleton,
      firstAdds_append_singleton]
    by_cases hin : product.id ∈ firstAdds (calls.map (fun p => p.id))
    · rw [if_pos (hmem.2 hin), if_pos hin]
      exact ⟨(ownKeyOrder_perm _).trans hperm, by
        unfold Object.keys
        rw [ownKeyOrder_filter, hfilter]⟩
    · rw [if_neg (fun h => hin (hmem.1 h)), if_neg hin, List.map_append, List.map_singleton]
      refine ⟨((ownKeyOrder_perm _).trans hperm).append_right _, ?_⟩
      unfold Object.keys
      rw [List.filter_append, List.filter_append, ownKeyOrder_filter, hfilter]

theorem filter_isNone_map_numberToString (F : List Int) :
    (F.map numberToString).filter (fun k => (arrayIndex? k).isNone) =
      (F.filter (fun id => !isIndexId id)).map numberToString := by
  induction F with
  | nil => rfl
  | cons id F ih =>
    by_cases h : isIndexId id = true
    · rw [List.map_cons, List.filter_cons_of_neg (by simp [arrayIndex?_numberToString, h]),
        List.filter_cons_of_neg (by simp [h]), ih]
    · rw [List.map_cons, List.filter_cons_of_pos (by simp [arrayIndex?_numberToString, h]),
        List.filter_cons_of_pos (by simp [h]), List.map_cons, ih]

theorem filterMap_arrayIndex?_numberToString (F : List Int) :
    (F.map numberToString).filterMap arrayIndex? = (F.filter isIndexId).map Int.toNat := by
  induction F with
  | nil => rfl
  | cons id F ih =>
    by_cases h : isIndexId id = true
    · rw [List.map_cons, List.filterMap_cons_some (by rw [arrayIndex?_numberToString, if_pos h]),
        List.filter_cons_of_pos h, List.map_cons, ih]
    · rw [List.map_cons, List.filterMap_cons_none (by rw [arrayIndex?_numberToString, if_neg h]),
        List.filter_cons_of_neg h, ih]

theorem isIndexId_nonneg {id : Int} (h : isIndexId id = true) : 0 ≤ id := by
  unfold isIndexId at h
  exact (of_decide_eq_true h).1

/-- Sorting the indices as naturals or the ids as integers is the same. -/
theorem insertionSort_toNat (G : List Int) (hG : ∀ id ∈ G, 0 ≤ id) :
    ((G.map Int.toNat).insertionSort (· ≤ ·)).map Int.ofNat = G.insertionSort (· ≤ ·) := by
  apply List.eq_of_perm_of_sorted (r := (· ≤ ·))
  · have h1 : (((G.map Int.toNat).insertionSort (· ≤ ·)).map Int.ofNat).Perm
        ((G.map Int.toNat).map Int.ofNat) := (List.perm_insertionSort _ _).map _
    have h2 : (G.map Int.toNat).map Int.ofNat = G := by
      rw [List.map_map]
      conv_rhs => rw [← List.map_id G]
      apply List.map_congr_left
      intro id hid
      simpa using Int.toNat_of_nonneg (hG id hid)
    rw [h2] at h1
    exact h1.trans (List.perm_insertionSort _ _).symm
  · exact List.Pairwise.map Int.ofNat (fun a b hab => Int.ofNat_le.2 hab)
      (List.sorted_insertionSort (· ≤ ·) (G.map Int.toNat))
  · exact List.sorted_insertionSort _ _

/-- `Object.keys` of the cart after a sequence of adds: the keys of the
array-index ids in ascending order, then the keys of the other ids in order of
first add. -/
theorem keys_cartAfter (calls : List Product) :
    Object.keys (cartAfter calls) = (lineOrder (calls.map (fun p => p.id))).map numberToString := by
  obtain ⟨hperm, hfilter⟩ := keys_cartAfter_perm calls
  unfold Object.keys ownKeyOrder lineOrder
  rw [hfilter, filter_isNone_map_numberToString, List.map_append]
  congr 1
  have hsort : ((cartAfter calls).map Prod.fst |>.filterMap arrayIndex?).insertionSort (· ≤ ·) =
      (((firstAdds (calls.map (fun p => p.id))).filter isIndexId).map Int.toNat).insertionSort
        (· ≤ ·) := by
    apply List.eq_of_perm_of_sorted (r := (· ≤ ·))
    · rw [← filterMap_arrayIndex?_numberToString]
      exact ((List.perm_insertionSort _ _).trans (hperm.filterMap _)).trans
        (List.perm_insertionSort _ _).symm
    · exact List.sorted_insertionSort _ _
    · exact List.sorted_insertionSort _ _
  rw [hsort, ← insertionSort_toNat _ (fun id hid => isIndexId_nonneg (List.mem_filter.1 hid).2),
    List.map_map]
  rfl

/-! ## The body of `POST /orders` -/

theorem lineOrder_perm (ids : List Int) : (lineOrder ids).Perm (firstAdds ids) := by
  unfold lineOrder
  exact ((List.perm_insertionSort _ _).append_right _).trans (List.filter_append_perm _ _)

theorem mem_lineOrder (ids : List Int) (id : Int) : id ∈ lineOrder ids ↔ id ∈ ids := by
  rw [(lineOrder_perm ids).mem_iff, mem_firstAdds]

theorem nodup_lineOrder (ids : List Int) : (lineOrder ids).Nodup :=
  (lineOrder_perm ids).nodup_iff.2 (nodup_firstAdds ids)

theorem callsNaming_ne_zero (calls : List Product) (id : Int)
    (h : id ∈ calls.map (fun p => p.id)) : callsNaming id calls ≠ 0 := by
  obtain ⟨p, hp, hid⟩ := List.mem_map.1 h
  unfold callsNaming
  exact Nat.pos_iff_ne_zero.1 (List.countP_pos_iff.2 ⟨p, hp, by simpa using hid⟩)

/-- The order lines of the cart after a sequence of adds: one line per id
added, in enumeration order, with the id itself and the number of adds. -/
theorem orderLines_cartAfter (calls : List Product) :
    orderLines (cartAfter calls) =
      (lineOrder (calls.map (fun p => p.id))).map
        (fun id => { productId := some id, quantity := some (callsNaming id calls) }) := by
  unfold orderLines
  rw [keys_cartAfter, List.map_map]
  apply List.map_congr_left
  intro id hid
  have hne := callsNaming_ne_zero calls id ((mem_lineOrder _ _).1 hid)
  simp only [Function.comp, parseInt_numberToString, getProp_cartAfter, if_neg hne]

theorem keys_cartAfter_nodup (calls : List Product) :
    ((cartAfter calls).map Prod.fst).Nodup :=
  (keys_cartAfter_perm calls).1.nodup_iff.2
    ((nodup_firstAdds _).map numberToString_injective)

theorem length_orderLines_cartAfter (calls : List Product) :
    (orderLines (cartAfter calls)).length = (cartAfter calls).length := by
  rw [orderLines_cartAfter, List.length_map, (lineOrder_perm _).length_eq,
    ← List.length_map (cartAfter calls) Prod.fst, (keys_cartAfter_perm calls).1.length_eq,
    List.length_map]

theorem cartAfter_ne_nil (calls : List Product) (h : calls ≠ []) : cartAfter calls ≠ [] := by
  cases calls with
  | nil => exact absurd rfl h
  | cons p rest =>
    intro hnil
    have hmem : p.id ∈ firstAdds ((p :: rest).map (fun p => p.id)) :=
      (mem_firstAdds _ _).2 (by simp)
    have hperm := (keys_cartAfter_perm (p :: rest)).1
    rw [hnil] at hperm
    have := hperm.length_eq
    simp only [List.map_nil, List.length_nil, List.length_map] at this
    have hlen : 0 < (firstAdds ((p :: rest).map (fun p => p.id))).length :=
      List.length_pos_of_mem hmem
    omega

theorem request_ok_dispatch {α : Type} (wrap : α → ResponseData) (x : Exchange α)
    (config : RequestConfig) (w : World) (data : α) (h : x.outcome = Except.ok data) :
    ∃ (keycloak : Keycloak) (calls : List Event) (config' : RequestConfig),
      (∀ e ∈ calls, e.isDispatch = false) ∧
      config'.baseURL = config.baseURL ∧ config'.method = config.method ∧
      config'.url = config.url ∧ config'.data = config.data ∧
      request wrap x config w =
        (Except.ok data, { w with
          keycloak := keycloak,
          trace := w.trace ++ calls ++
            [Event.dispatch config', Event.response config' (wrap data)] }) := by
  obtain ⟨kc, calls, hcalls, heq⟩ := request_ok wrap x config w data h
  refine ⟨kc, calls,
    { config with headers := setProp config.headers "Authorization" ("Bearer " ++ kc.token) },
    ?_, rfl, rfl, rfl, rfl, heq⟩
  intro e he
  rcases hcalls e he with rfl | rfl <;> rfl

theorem placeOrder_trace_of_ok (post : Exchange Unit) (get : Exchange (List Order)) (w : World)
    (h : w.app.cart ≠ []) (u : Unit) (hok : post.outcome = Except.ok u) :
    ∃ (calls : List Event) (config : RequestConfig) (rest : List Event),
      (placeOrder post get w).trace = w.trace ++ (calls ++ Event.dispatch config :: rest) ∧
      (∀ e ∈ calls, e.isDispatch = false) ∧
      config.baseURL = "http://localhost:8085" ∧ config.method = "post" ∧
      config.url = "/orders" ∧
      config.data = some (Body.orderLines (orderLines w.app.cart)) := by
  obtain ⟨kc, calls, config', hcalls, h1, h2, h3, h4, heq⟩ :=
    request_ok_dispatch (fun _ : Unit => ResponseData.other) post
      (api.config "post" "/orders" (some (Body.orderLines (orderLines w.app.cart)))) w u hok
  unfold placeOrder
  simp only [if_neg (orderLines_ne_nil _ h), heq]
  split
  · obtain ⟨e2, ht2, -⟩ := (fetchOrders_catalogFollows get
      { alert "Order placed successfully!"
          { app := w.app, keycloak := kc,
            trace := w.trace ++ calls ++
              [Event.dispatch config', Event.response config' ResponseData.other] } with
        app := { w.app with cart := [] } }).1
    refine ⟨calls, config', Event.response config' ResponseData.other ::
      Event.alert "Order placed successfully!" :: e2, ?_, hcalls, h1, h2, h3, h4⟩
    exact ht2.trans (by simp [alert])
  · exact ⟨calls, config', [Event.response config' ResponseData.other,
      Event.alert "Order placed successfully!"], by simp [alert], hcalls, h1, h2, h3, h4⟩

theorem placeOrder_trace_of_error (post : Exchange Unit) (get : Exchange (List Order))
    (w : World) (h : w.app.cart ≠ []) (err : JSError) (herr : post.outcome = Except.error err) :
    ∃ events : List Event,
      (placeOrder post get w).trace = w.trace ++ events ∧
      ∀ config, Event.dispatch config ∈ events →
        config.baseURL = "http://localhost:8085" ∧ config.method = "post" ∧
        config.url = "/orders" ∧
        config.data = some (Body.orderLines (orderLines w.app.cart)) := by
  obtain ⟨kc, events, hev, heq⟩ := request_error (fun _ : Unit => ResponseData.other) post
    (api.config "post" "/orders" (some (Body.orderLines (orderLines w.app.cart)))) w err herr
  refine ⟨events ++ [Event.alert "Failed to place order"], ?_, ?_⟩
  · unfold placeOrder
    simp only [if_neg (orderLines_ne_nil _ h), heq]
    simp [alert]
  · intro config hc
    simp only [List.mem_append, List.mem_singleton] at hc
    rcases hc with hc | hc
    · rcases hev _ hc with h1 | h1 | ⟨token, h1⟩
      · cases h1
      · cases h1
      · cases h1
        exact ⟨rfl, rfl, rfl, rfl⟩
    · cases hc

/-- C6: for a cart built by a non-empty sequence of `addToCart` calls, the
order lines are one line per product id added, each with that id (the key
parsed back) and the quantity stored for it, which is the number of adds; no id
occurs twice, there are as many lines as cart entries, and no line has another
id. A `placeOrder` on that cart dispatches `POST /orders` with exactly these
lines as `orderLines`, and after success the cart is empty. The cart
`{"3": 2, "7": 1}` gives the lines `(3, 2), (7, 1)`. -/
theorem placeOrder_submits_cart_lines (calls : List Product) (hne : calls ≠ []) :
    orderLines (cartAfter calls) =
      (lineOrder (calls.map (fun p => p.id))).map
        (fun id => { productId := some id, quantity := some (callsNaming id calls) }) ∧
    (lineOrder (calls.map (fun p => p.id))).Nodup ∧
    (∀ id, id ∈ lineOrder (calls.map (fun p => p.id)) ↔ ∃ p ∈ calls, p.id = id) ∧
    ((cartAfter calls).map Prod.fst).Nodup ∧
    (orderLines (cartAfter calls)).length = (cartAfter calls).length ∧
    (∀ id ∈ lineOrder (calls.map (fun p => p.id)),
      parseInt (numberToString id) = some id ∧
        getProp (cartAfter calls) (numberToString id) = some (callsNaming id calls)) ∧
    (∀ (post : Exchange Unit) (get : Exchange (List Order)) (w : World) (u : Unit),
      w.app.cart = cartAfter calls → post.outcome = Except.ok u →
        (∃ (keycloakCalls : List Event) (config : RequestConfig) (rest : List Event),
          (placeOrder post get w).trace =
            w.trace ++ (keycloakCalls ++ Event.dispatch config :: rest) ∧
          (∀ e ∈ keycloakCalls, e.isDispatch = false) ∧
          config.baseURL = "http://localhost:8085" ∧ config.method = "post" ∧
          config.url = "/orders" ∧
          config.data = some (Body.orderLines (orderLines (cartAfter calls)))) ∧
        (placeOrder post get w).app.cart = []) ∧
    (∀ (post : Exchange Unit) (get : Exchange (List Order)) (w : World) (err : JSError),
      w.app.cart = cartAfter calls → post.outcome = Except.error err →
        ∃ events : List Event,
          (placeOrder post get w).trace = w.trace ++ events ∧
          ∀ config, Event.dispatch config ∈ events →
            config.baseURL = "http://localhost:8085" ∧ config.method = "post" ∧
            config.url = "/orders" ∧
            config.data = some (Body.orderLines (orderLines (cartAfter calls)))) ∧
    cartAfter [⟨3, "ink", 700, 4, ""⟩, ⟨7, "pen", 150, 9, ""⟩, ⟨3, "ink", 700, 4, ""⟩] =
      [("3", 2), ("7", 1)] ∧
    orderLines [("3", 2), ("7", 1)] = [⟨some 3, some 2⟩, ⟨some 7, some 1⟩] := by
  refine ⟨orderLines_cartAfter calls, nodup_lineOrder _, ?_, keys_cartAfter_nodup calls,
    length_orderLines_cartAfter calls, ?_, ?_, ?_, by decide, by decide⟩
  · intro id
    rw [mem_lineOrder, List.mem_map]
  · intro id hid
    refine ⟨parseInt_numberToString id, ?_⟩
    rw [getProp_cartAfter, if_neg (callsNaming_ne_zero calls id ((mem_lineOrder _ _).1 hid))]
  · intro post get w u hw hok
    have hcart : w.app.cart ≠ [] := hw ▸ cartAfter_ne_nil calls hne
    refine ⟨?_, placeOrder_of_ok post get w hcart u hok⟩
    rw [← hw]
    exact placeOrder_trace_of_ok post get w hcart u hok
  · intro post get w err hw herr
    have hcart : w.app.cart ≠ [] := hw ▸ cartAfter_ne_nil calls hne
    rw [← hw]
    exact placeOrder_trace_of_error post get w hcart err herr

/-- Witness of C6: after adding product 3, product 7 and product 3 again, the
order lines are `(3, 2), (7, 1)`. -/
theorem placeOrder_submits_cart_lines_witness :
    ([⟨3, "ink", 700, 4, ""⟩, ⟨7, "pen", 150, 9, ""⟩, ⟨3, "ink", 700, 4, ""⟩] : List Product) ≠ []
      ∧ orderLines
          (cartAfter [⟨3, "ink", 700, 4, ""⟩, ⟨7, "pen", 150, 9, ""⟩, ⟨3, "ink", 700, 4, ""⟩]) =
        [⟨some 3, some 2⟩, ⟨some 7, some 1⟩] :=
  ⟨by decide,
    (placeOrder_submits_cart_lines
      [⟨3, "ink", 700, 4, ""⟩, ⟨7, "pen", 150, 9, ""⟩, ⟨3, "ink", 700, 4, ""⟩]
      (by decide)).1.trans (by decide)⟩

/-- The scenario of C6 run through: with the cart `{"3": 2, "7": 1}`, a fresh
token `t0` and a backend that accepts the order, `placeOrder` asks Keycloak
whether the token expires within 5 seconds, dispatches `POST /orders` with the
body `{orderLines: [{productId: 3, quantity: 2}, {productId: 7, quantity: 1}]}`
and the bearer header, raises the success dialog and empties the cart. -/
theorem placeOrder_scenario :
    placeOrder (Exchange.fresh (Except.ok ())) (Exchange.fresh (Except.ok []))
        { World.initial ⟨true, "t0", none⟩ with
          app := { AppState.initial with cart := [("3", 2), ("7", 1)] } } =
      { app := AppState.initial,
        keycloak := ⟨true, "t0", none⟩,
        trace :=
          [Event.isTokenExpired 5,
            Event.dispatch
              { baseURL := "http://localhost:8085", method := "post", url := "/orders",
                data := some (Body.orderLines [⟨some 3, some 2⟩, ⟨some 7, some 1⟩]),
                headers := [("Authorization", "Bearer t0")] },
            Event.response
              { baseURL := "http://localhost:8085", method := "post", url := "/orders",
                data := some (Body.orderLines [⟨some 3, some 2⟩, ⟨some 7, some 1⟩]),
                headers := [("Authorization", "Bearer t0")] } ResponseData.other,
            Event.alert "Order placed successfully!"] } := by
  decide

/-! ## The order of the order lines -/

theorem pair_sublist_of_sorted (S : List Int) (hS : S.Sorted (· ≤ ·)) (a b : Int)
    (ha : a ∈ S) (hb : b ∈ S) (hab : a < b) : List.Sublist [a, b] S := by
  induction S with
  | nil => simp at ha
  | cons x S ih =>
    have hx : ∀ y ∈ S, x ≤ y := (List.sorted_cons.1 hS).1
    have hS' : S.Sorted (· ≤ ·) := (List.sorted_cons.1 hS).2
    rcases List.mem_cons.1 ha with rfl | ha'
    · rcases List.mem_cons.1 hb with rfl | hb'
      · exact absurd hab (lt_irrefl _)
      · exact List.Sublist.cons₂ _ (List.singleton_sublist.2 hb')
    · rcases List.mem_cons.1 hb with rfl | hb'
      · exact absurd (hx a ha') (not_le.2 hab)
      · exact List.Sublist.cons _ (ih hS' ha' hb')

theorem lineIds_cartAfter (calls : List Product) :
    (orderLines (cartAfter calls)).map (fun line => line.productId) =
      (lineOrder (calls.map (fun p => p.id))).map some := by
  rw [orderLines_cartAfter, List.map_map]
  rfl

theorem linePrecedes_of_sublist (calls : List Product) (a b : Int)
    (h : List.Sublist [a, b] (lineOrder (calls.map (fun p => p.id)))) :
    linePrecedes (orderLines (cartAfter calls)) a b := by
  unfold linePrecedes
  rw [lineIds_cartAfter]
  exact h.map some

/-- C7, as the code has it: the order lines stand in the enumeration order of
the cart keys, not in order of first add. The lines of the products whose id
is an array index (an integer from 0 to 2^32 - 2) come first, in ascending
order of id whatever the order of the adds; the lines of the products with
other ids follow, in order of first add. No id has two lines. -/
theorem orderLines_in_key_order (calls : List Product) :
    (orderLines (cartAfter calls)).map (fun line => line.productId) =
      (lineOrder (calls.map (fun p => p.id))).map some ∧
    ((orderLines (cartAfter calls)).map (fun line => line.productId)).Nodup ∧
    (∀ a b : Int, a ∈ calls.map (fun p => p.id) → b ∈ calls.map (fun p => p.id) →
      isIndexId a = true → isIndexId b = true → a < b →
        linePrecedes (orderLines (cartAfter calls)) a b) ∧
    (∀ a b : Int, a ∈ calls.map (fun p => p.id) → b ∈ calls.map (fun p => p.id) →
      isIndexId a = true → isIndexId b = false →
        linePrecedes (orderLines (cartAfter calls)) a b) ∧
    (∀ a b : Int, isIndexId a = false → isIndexId b = false → addedBefore calls a b →
        linePrecedes (orderLines (cartAfter calls)) a b) := by
  refine ⟨lineIds_cartAfter calls, ?_, ?_, ?_, ?_⟩
  · rw [lineIds_cartAfter]
    exact (nodup_lineOrder _).map (Option.some_injective _)
  · intro a b ha hb hia hib hab
    apply linePrecedes_of_sublist
    unfold lineOrder
    apply List.sublist_append_of_sublist_left
    apply pair_sublist_of_sorted _ (List.sorted_insertionSort _ _) a b _ _ hab
    · rw [List.mem_insertionSort, List.mem_filter]
      exact ⟨(mem_firstAdds _ _).2 ha, hia⟩
    · rw [List.mem_insertionSort, List.mem_filter]
      exact ⟨(mem_firstAdds _ _).2 hb, hib⟩
  · intro a b ha hb hia hib
    apply linePrecedes_of_sublist
    unfold lineOrder
    have h1 : List.Sublist [a]
        (((firstAdds (calls.map (fun p => p.id))).filter isIndexId).insertionSort (· ≤ ·)) := by
      rw [List.singleton_sublist, List.mem_insertionSort, List.mem_filter]
      exact ⟨(mem_firstAdds _ _).2 ha, hia⟩
    have h2 : List.Sublist [b]
        ((firstAdds (calls.map (fun p => p.id))).filter (fun id => !isIndexId id)) := by
      rw [List.singleton_sublist, List.mem_filter]
      exact ⟨(mem_firstAdds _ _).2 hb, by simp [hib]⟩
    exact h1.append h2
  · intro a b hia hib hab
    apply linePrecedes_of_sublist
    unfold lineOrder
    apply List.sublist_append_of_sublist_right
    unfold addedBefore at hab
    have := hab.filter (fun id => !isIndexId id)
    simpa [hia, hib] using this

/-- Witness of C7: products 7 and 3 added in this order have array-index ids,
so the line of 3 stands before the line of 7. -/
theorem orderLines_in_key_order_witness :
    linePrecedes (orderLines (cartAfter [⟨7, "pen", 150, 9, ""⟩, ⟨3, "ink", 700, 4, ""⟩])) 3 7 :=
  (orderLines_in_key_order [⟨7, "pen", 150, 9, ""⟩, ⟨3, "ink", 700, 4, ""⟩]).2.2.1 3 7
    (by decide) (by decide) (by decide) (by decide) (by decide)

/-- Counterexample to C7 as stated: product 7 is added first and product 3
second, yet the order lines are those of 3 and then 7, so the line of 7 does not
stand before the line of 3. -/
theorem orderLines_not_in_first_add_order :
    addedBefore [⟨7, "pen", 150, 9, ""⟩, ⟨3, "ink", 700, 4, ""⟩] 7 3 ∧
      orderLines (cartAfter [⟨7, "pen", 150, 9, ""⟩, ⟨3, "ink", 700, 4, ""⟩]) =
        [⟨some 3, some 1⟩, ⟨some 7, some 1⟩] ∧
      ¬ linePrecedes
          (orderLines (cartAfter [⟨7, "pen", 150, 9, ""⟩, ⟨3, "ink", 700, 4, ""⟩])) 7 3 := by
  refine ⟨by unfold addedBefore; decide, by decide, ?_⟩
  unfold linePrecedes
  decide

end App
